import Mathlib

/-!
Verification development for the k8s-backup repository (Go).

The Go sources are shallowly embedded as executable Lean definitions:

* `pkg/types` (types.go): `BackupMetadata`, `ResourceInfo`, `ResourceWithContent`,
  `BackupManifest`, `BackupOptions`, `RestoreOptions`, `ResourceOrder`,
  `GetResourceOrder`, `IsClusterScoped`, `SupportedResourceTypes`.
* `pkg/storage` (storage.go): `SaveBackup`, `LoadBackup`, compression.  The local
  filesystem is modelled as an association list from path strings to entries; a
  YAML-serialized manifest is modelled as a typed entry (yaml round-trips the
  plain record faithfully), a `.tar.gz` archive as a typed container of the
  archived (relative path, entry) pairs (tar+gzip round-trip the tree
  faithfully).  `filepath.Join` of clean names is string concatenation with "/".
  Resource file contents are kept polymorphic (`α`): the storage layer never
  inspects them; their byte length is supplied by a size function `sz`.
* `pkg/k8s` (client.go): `ApplyResource` / `applyResource`.  The cluster visible
  through the Resource API is an association list from (kind, namespace, name)
  to the stored document.  The YAML documents flowing through restore are
  modelled structurally (`YamlDoc`); `yaml.Marshal`/`yaml.Unmarshal` between the
  unstructured and typed forms of the same document is the identity.
  Error values are modelled structurally (`GoError`);
  `strings.Contains(err.Error(), "already exists")` holds exactly for the
  AlreadyExists error the API returns from a create on an existing object
  (and is preserved by `fmt.Errorf("...: %w", err)` wrapping).
* `pkg/restore` (restore.go): `filterResources`, `sortResourcesByDependency`,
  `parseResourceObject`, the apply loop of `RestoreBackup`, `RestoreBackup`.
  `sort.Slice` is an unstable comparison sort; for slices shorter than 12
  elements Go's implementation performs a plain insertion sort, which is what
  `insertionSortBy` computes; all general theorems rely only on the output
  being a permutation of the input sorted by the comparator.
  `context.Context` cancellation is modelled by an optional instant `cancelAt`
  together with a counter `t` of `ctx.Err()` observations: the context reports
  cancellation at every observation from `cancelAt` on.  Wall-clock durations
  and the log/progress-callback output are not modelled (they do not feed back
  into any result).  The restore loop is parametric in the client's
  `ApplyResource` behaviour (the Resource API is an external collaborator);
  `clusterApplyResource` is the embedding of the concrete client.go.
* `pkg/backup` (backup.go): `cleanObject`, `convertToResourceWithContent`, the
  per-kind collectors, `backupClusterScopedResources`,
  `backupNamespacedResources`, `getNamespacesToBackup`,
  `getResourceTypesToBackup`, `CreateBackup`.  The listing side of the Resource
  API is a `ClusterView` of per-namespace object lists; listings are modelled
  as total (API-level listing failures are outside the claims below, so the
  collection error lists are empty and only the skip rules matter).  The
  channel fan-in merges the per-task slices in an arbitrary order; the model
  fixes the order cluster-task-first, then namespaces in sorted order — all
  properties proved about the aggregate are order-insensitive.
-/

/-! ## Errors and cancellation -/

/-- Structural model of Go `error` values produced and inspected by the code.
`alreadyExists` is the API error whose message contains "already exists";
`wrapped` models `fmt.Errorf("...: %w", e)`, which keeps the original message
as a substring. -/
inductive GoError where
  | contextCanceled : GoError
  | alreadyExists : GoError
  | notFound : GoError
  | msg (s : String) : GoError
  | wrapped (s : String) (e : GoError) : GoError
deriving DecidableEq, Repr

/-- `strings.Contains(err.Error(), "already exists")` as used at restore.go:119. -/
def containsAlreadyExists : GoError → Bool
  | .alreadyExists => true
  | .wrapped _ e => containsAlreadyExists e
  | _ => false

/-- `ctx.Err() != nil` at the `t`-th observation of a context that becomes
cancelled at observation `cancelAt` (never, when `none`). -/
def ctxErr (cancelAt : Option Nat) (t : Nat) : Bool :=
  match cancelAt with
  | none => false
  | some k => decide (k ≤ t)

/-! ## pkg/types -/

/-- types.go `BackupMetadata`.  `timestamp` is an abstract instant (Nat). -/
structure BackupMetadata where
  name : String
  timestamp : Nat
  version : String
  kubernetesVersion : String
  namespaces : List String
  resourceTypes : List String
  totalResources : Nat
  backupPath : String
  size : Nat
  compress : Bool
deriving DecidableEq, Repr

/-- types.go `ResourceInfo` (`ns` is the Go field `Namespace`). -/
structure ResourceInfo where
  apiVersion : String
  kind : String
  ns : String
  name : String
  relativePath : String
  labels : List (String × String)
  annotations : List (String × String)
deriving DecidableEq, Repr

/-- types.go `ResourceWithContent`, polymorphic in the content representation
(opaque bytes for the storage layer, a structured document on the restore
path, a marshalled object on the backup path).  The `Object` field of the Go
struct is never read on the save/load/restore paths and is omitted. -/
structure ResourceWithContent (α : Type) where
  content : α
  info : ResourceInfo
deriving DecidableEq, Repr

/-- types.go `BackupManifest`. -/
structure BackupManifest where
  metadata : BackupMetadata
  resources : List ResourceInfo
deriving DecidableEq, Repr

/-- types.go `BackupOptions`. -/
structure BackupOptions where
  namespaces : List String
  resourceTypes : List String
  excludeNamespaces : List String
  excludeResourceTypes : List String
  outputPath : String
  backupName : String
  compress : Bool
deriving DecidableEq, Repr

/-- types.go `RestoreOptions` (`timeout` is an abstract duration). -/
structure RestoreOptions where
  backupPath : String
  namespaces : List String
  resourceTypes : List String
  dryRun : Bool
  wait : Bool
  timeout : Nat
  overwriteExisting : Bool
deriving DecidableEq, Repr

/-- types.go `BackupFormatVersion`. -/
def BackupFormatVersion : String := "v1"

/-- types.go `ManifestFileName`. -/
def ManifestFileName : String := "manifest.yaml"

/-- types.go `ResourceOrder`. -/
def ResourceOrder : List String :=
  ["CustomResourceDefinition", "ClusterRole", "ClusterRoleBinding",
   "PersistentVolume", "StorageClass", "VolumeSnapshotClass",
   "Namespace",
   "Secret", "ConfigMap", "ServiceAccount", "Role", "RoleBinding", "PersistentVolumeClaim",
   "NetworkPolicy", "Service", "Endpoints",
   "Deployment", "StatefulSet", "DaemonSet", "Job", "CronJob", "ReplicaSet", "Pod",
   "Ingress", "HorizontalPodAutoscaler", "PodDisruptionBudget", "Event"]

/-- types.go `GetResourceOrder`: the index of `kind` in `ResourceOrder`
(`resourceOrderMap` maps each kind to its first index), `len(ResourceOrder)`
for unknown kinds — which is exactly `List.indexOf`. -/
def GetResourceOrder (kind : String) : Nat :=
  ResourceOrder.indexOf kind

/-- types.go `SupportedResourceTypes`. -/
def SupportedResourceTypes : List String :=
  ["namespaces", "clusterroles", "clusterrolebindings", "persistentvolumes",
   "deployments", "services", "configmaps", "secrets", "persistentvolumeclaims",
   "serviceaccounts", "roles", "rolebindings", "ingresses", "networkpolicies",
   "horizontalpodautoscalers", "poddisruptionbudgets", "statefulsets",
   "daemonsets", "jobs", "cronjobs", "replicasets", "pods"]

/-- types.go `IsClusterScoped`. -/
def IsClusterScoped (resourceType : String) : Bool :=
  ["clusterroles", "clusterrolebindings", "persistentvolumes", "namespaces",
   "customresourcedefinitions", "storageclasses", "volumesnapshotclasses"].contains resourceType

/-- Go `strings.ToLower` on the ASCII kind names and resource-type tokens
the code feeds it: per-character lowercasing.  (Defined structurally over the
character list so that concrete instances evaluate.) -/
def strLower (s : String) : String := ⟨s.data.map Char.toLower⟩

/-- Go `<` on strings: lexicographic comparison of the character sequences.
(Defined over the character lists so that concrete instances evaluate;
equivalent to the library order on `String`, see `strLt_iff`.) -/
def strLt (a b : String) : Bool := decide (a.data < b.data)

/-! ## Generic insertion sort (Go `sort.Slice` / `sort.Strings`)

Go's `sort.Slice` is an unstable comparison sort; its output is a permutation
of the input that is sorted with respect to the strict comparator, and for
slices of fewer than 12 elements it is exactly an insertion sort. -/

/-- Insert `x` into `l` before the first element `y` with `less x y`
(after all elements not strictly greater — the effect of Go's insertion
sort inner loop, which swaps while strictly less). -/
def insertSortedBy (less : α → α → Bool) (x : α) : List α → List α
  | [] => [x]
  | y :: ys => if less x y then x :: y :: ys else y :: insertSortedBy less x ys

/-- Insertion sort with a strict comparator, processing elements left to
right as Go's insertion sort does. -/
def insertionSortBy (less : α → α → Bool) (l : List α) : List α :=
  l.foldl (fun acc x => insertSortedBy less x acc) []

/-- `sort.Strings`: ascending string order. -/
def sortStrings (l : List String) : List String :=
  insertionSortBy strLt l

/-! ## pkg/storage: filesystem model -/

/-- A regular file's payload: either opaque resource content or the
YAML-marshalled manifest document. -/
inductive PlainEntry (α : Type) where
  | file (content : α) : PlainEntry α
  | manifestFile (m : BackupManifest) : PlainEntry α
deriving DecidableEq, Repr

/-- A filesystem entry: a regular file or a `.tar.gz` archive holding the
(relative path, file) pairs of an archived directory tree. -/
inductive FsEntry (α : Type) where
  | plain (e : PlainEntry α) : FsEntry α
  | archive (entries : List (String × PlainEntry α)) : FsEntry α
deriving DecidableEq, Repr

/-- The filesystem: an association list from absolute path to entry, kept
duplicate-free by `setPath`. -/
abbrev Fs (α : Type) := List (String × FsEntry α)

/-- Write (create or overwrite) the file at path `p`. -/
def setPath (fs : Fs α) (p : String) (e : FsEntry α) : Fs α :=
  (p, e) :: fs.filter (fun q => q.1 != p)

/-- Read the entry at path `p`, if present. -/
def getPath (fs : Fs α) (p : String) : Option (FsEntry α) :=
  (fs.find? (fun q => q.1 == p)).map (fun q => q.2)

/-- Remove the whole tree rooted at directory `dir` (`os.RemoveAll`). -/
def removeTree (fs : Fs α) (dir : String) : Fs α :=
  fs.filter (fun q => !((dir ++ "/").data.isPrefixOf q.1.data))

/-- `strings.HasSuffix`. -/
def hasSuffix (s suffix : String) : Bool :=
  suffix.data.isSuffixOf s.data

/-- storage.go:56-64: the relative path assigned to a resource inside the
backup directory: `<namespace|"cluster">/<lowercase(kind)>-<name>.yaml`. -/
def relativePathFor (info : ResourceInfo) : String :=
  (if info.ns ≠ "" then info.ns else "cluster") ++ "/" ++
    (strLower info.kind ++ "-" ++ info.name ++ ".yaml")

/-- The manifest entry recorded for a resource (storage.go:76-78): the
resource's info with `RelativePath` filled in. -/
def updInfo (info : ResourceInfo) : ResourceInfo :=
  { info with relativePath := relativePathFor info }

/-- storage.go:55-85 (first pass of `SaveBackup`): build the manifest's
resource entries and the total size, observing `ctx.Err()` once per resource
(after recording the entry, before the write pass). -/
def savePass1 (sz : α → Nat) (cancelAt : Option Nat) :
    List (ResourceWithContent α) → Nat → Except GoError (List ResourceInfo × Nat) × Nat
  | [], t => (.ok ([], 0), t)
  | r :: rs, t =>
    if ctxErr cancelAt t then (.error .contextCanceled, t)
    else
      match savePass1 sz cancelAt rs (t + 1) with
      | (.ok (infos, total), t') => (.ok (updInfo r.info :: infos, sz r.content + total), t')
      | (.error e, t') => (.error e, t')

/-- storage.go:215-283 `compressBackup`: archive every entry under
`backupDir` (keyed by its path relative to `backupDir`) into
`backupDir ++ ".tar.gz"`, then remove the original directory.  Nested
archives cannot occur under a freshly saved backup directory and are not
carried into the tar. -/
def compressBackup (backupDir : String) (fs : Fs α) : Fs α :=
  let pre := backupDir ++ "/"
  let entries := fs.foldr
    (fun q acc =>
      if pre.data.isPrefixOf q.1.data then
        match q.2 with
        | .plain e => (q.1.drop pre.length, e) :: acc
        | .archive _ => acc
      else acc) []
  setPath (removeTree fs backupDir) (backupDir ++ ".tar.gz") (.archive entries)

/-- storage.go:35-118 `LocalStorage.SaveBackup`.  Returns the save outcome
(the updated filesystem), the caller-visible metadata (the Go code sets
`metadata.BackupPath` through the pointer at line 43 before anything can
fail), and the context-observation counter. -/
def SaveBackup (sz : α → Nat) (basePath : String) (cancelAt : Option Nat)
    (md : BackupMetadata) (resources : List (ResourceWithContent α))
    (fs : Fs α) (t : Nat) :
    Except GoError (Fs α) × BackupMetadata × Nat :=
  let backupDir := basePath ++ "/" ++ md.name
  let md' := { md with backupPath := backupDir }
  match savePass1 sz cancelAt resources t with
  | (.error e, t') => (.error e, md', t')
  | (.ok (infos, totalSize), t') =>
    -- second pass (storage.go:88-94): write every resource file
    let fs₁ := (infos.zip resources).foldl
      (fun f p => setPath f (backupDir ++ "/" ++ p.1.relativePath) (.plain (.file p.2.content))) fs
    -- storage.go:46-49, 97: manifest carries a copy of the metadata with Size updated
    let manifest : BackupManifest := { metadata := { md' with size := totalSize }, resources := infos }
    let fs₂ := setPath fs₁ (backupDir ++ "/" ++ ManifestFileName) (.plain (.manifestFile manifest))
    if md.compress then (.ok (compressBackup backupDir fs₂), md', t')
    else (.ok fs₂, md', t')

/-- Look a relative path up among extracted archive entries. -/
def lookupRel (entries : List (String × PlainEntry α)) (rel : String) : Option (PlainEntry α) :=
  (entries.find? (fun q => q.1 == rel)).map (fun q => q.2)

/-- storage.go:148-167: read every resource file named by the manifest, in
manifest order, observing `ctx.Err()` once per loaded resource. -/
def loadResources (cancelAt : Option Nat) (read : String → Option (PlainEntry α)) :
    List ResourceInfo → Nat → Except GoError (List (ResourceWithContent α)) × Nat
  | [], t => (.ok [], t)
  | info :: infos, t =>
    match read info.relativePath with
    | some (.file c) =>
      if ctxErr cancelAt t then (.error .contextCanceled, t)
      else
        match loadResources cancelAt read infos (t + 1) with
        | (.ok rs, t') => (.ok ({ content := c, info := info } :: rs), t')
        | (.error e, t') => (.error e, t')
    | _ => (.error (.msg ("failed to read resource file " ++ info.relativePath)), t)

/-- storage.go:121-170 `LocalStorage.LoadBackup`.  A `.tar.gz` path is read
through its archive entries (extraction to a scratch directory followed by
the deferred `os.RemoveAll` leaves the filesystem unchanged); a directory
path is read through `getPath`. -/
def LoadBackup (cancelAt : Option Nat) (backupPath : String) (fs : Fs α) (t : Nat) :
    Except GoError (BackupManifest × List (ResourceWithContent α)) × Nat :=
  let readerE : Except GoError (String → Option (PlainEntry α)) :=
    if hasSuffix backupPath ".tar.gz" then
      match getPath fs backupPath with
      | some (.archive entries) => .ok (fun rel => lookupRel entries rel)
      | _ => .error (.msg "failed to extract backup")
    else
      .ok (fun rel =>
        match getPath fs (backupPath ++ "/" ++ rel) with
        | some (.plain e) => some e
        | _ => none)
  match readerE with
  | .error e => (.error e, t)
  | .ok read =>
    match read ManifestFileName with
    | some (.manifestFile m) =>
      match loadResources cancelAt read m.resources t with
      | (.ok rs, t') => (.ok (m, rs), t')
      | (.error e, t') => (.error e, t')
    | some (.file _) => (.error (.msg "failed to unmarshal manifest"), t)
    | none => (.error (.msg "failed to read manifest"), t)

/-- Erase the fields the round-trip claim does not compare (timestamp and
path), plus — in the amended claim — the size field that `SaveBackup`
recomputes into the manifest copy. -/
def metaErasedTP (m : BackupMetadata) : BackupMetadata :=
  { m with timestamp := 0, backupPath := "" }

/-- As `metaErasedTP`, additionally erasing `size`. -/
def metaErasedTPS (m : BackupMetadata) : BackupMetadata :=
  { m with timestamp := 0, backupPath := "", size := 0 }

/-- The identity key of a record together with its content bytes, the data
the round-trip claim compares record-wise. -/
def keyContent (r : ResourceWithContent α) : String × String × String × α :=
  (r.info.kind, r.info.ns, r.info.name, r.content)

/-! ## pkg/k8s: cluster state and the client's ApplyResource -/

/-- Structural model of a YAML document flowing through restore: top-level
`apiVersion`/`kind` (absent when the mapping lacks the key or it is not a
string), `metadata.namespace`, `metadata.name`, and the remaining fields as
an opaque payload.  Marshalling the unstructured form and unmarshalling it
into the matching typed object preserves the document. -/
structure YamlDoc where
  apiVersion : Option String
  kind : Option String
  metaNs : String
  metaName : String
  payload : List (String × String)
deriving DecidableEq, Repr

/-- The observable state of the Resource API: the stored objects, keyed by
(kind, namespace, name) — namespace `""` for the cluster-scoped Namespace
collection. -/
abbrev ClusterSt := List ((String × String × String) × YamlDoc)

/-- Read an object from the cluster. -/
def clusterGet (c : ClusterSt) (k : String × String × String) : Option YamlDoc :=
  (c.find? (fun q => q.1 == k)).map (fun q => q.2)

/-- Store an object in the cluster (create or replace). -/
def clusterSet (c : ClusterSt) (k : String × String × String) (v : YamlDoc) : ClusterSt :=
  (k, v) :: c.filter (fun q => q.1 != k)

/-- `Create`: fails with the AlreadyExists API error when the key is taken. -/
def clusterCreate (c : ClusterSt) (k : String × String × String) (v : YamlDoc) :
    Except GoError Unit × ClusterSt :=
  match clusterGet c k with
  | some _ => (.error .alreadyExists, c)
  | none => (.ok (), clusterSet c k v)

/-- `Update`: replaces an existing object, NotFound otherwise. -/
def clusterUpdate (c : ClusterSt) (k : String × String × String) (v : YamlDoc) :
    Except GoError Unit × ClusterSt :=
  match clusterGet c k with
  | some _ => (.ok (), clusterSet c k v)
  | none => (.error .notFound, c)

/-- client.go:113-165, one arm of the switch: `Create`, and on an error whose
message contains "already exists", `Update`. -/
def createThenUpdate (c : ClusterSt) (k : String × String × String) (v : YamlDoc) :
    Except GoError Unit × ClusterSt :=
  match clusterCreate c k v with
  | (.error e, c₁) =>
    if containsAlreadyExists e then clusterUpdate c₁ k v else (.error e, c₁)
  | (.ok u, c₁) => (.ok u, c₁)

/-- client.go:99-172 `applyResource`: switch on the kind; the typed object
unmarshalled from the document gets its `Namespace` field set to the
collection namespace before the create/update (a no-op for `Namespace`
objects, whose collection is keyed by name only); unsupported kinds are
logged and succeed without touching the cluster. -/
def applyResourceInner (c : ClusterSt) (doc : YamlDoc) (kind ns : String) :
    Except GoError Unit × ClusterSt :=
  match kind with
  | "Namespace" => createThenUpdate c ("Namespace", "", doc.metaName) doc
  | "Service" => createThenUpdate c ("Service", ns, doc.metaName) { doc with metaNs := ns }
  | "Deployment" => createThenUpdate c ("Deployment", ns, doc.metaName) { doc with metaNs := ns }
  | "ConfigMap" => createThenUpdate c ("ConfigMap", ns, doc.metaName) { doc with metaNs := ns }
  | "Secret" => createThenUpdate c ("Secret", ns, doc.metaName) { doc with metaNs := ns }
  | _ => (.ok (), c)

/-- client.go:68-96 `Client.ApplyResource`: in dry-run mode every operation is
skipped; otherwise the target namespace defaults to the passed namespace when
the document has none, and the per-kind apply runs. -/
def clusterApplyResource (doc : YamlDoc) (nsParam : String) (dryRun : Bool)
    (c : ClusterSt) : Except GoError Unit × ClusterSt :=
  if dryRun then (.ok (), c)
  else
    let kind := doc.kind.getD ""
    let targetNs := if doc.metaNs = "" && nsParam ≠ "" then nsParam else doc.metaNs
    applyResourceInner c { doc with metaNs := targetNs } kind targetNs

/-- The shape of a client's `ApplyResource`, as the restore loop consumes it:
(document, namespace argument, dry-run flag, cluster before) to (result,
cluster after).  The Resource API is an external collaborator; the concrete
repository client is `clusterApplyResource`. -/
def ApplyFn : Type := YamlDoc → String → Bool → ClusterSt → Except GoError Unit × ClusterSt

/-! ## pkg/restore -/

/-- restore.go:294-324 `getResourceTypePlural`. -/
def getResourceTypePlural (resourceType : String) : String :=
  match resourceType with
  | "namespace" => "namespaces"
  | "secret" => "secrets"
  | "configmap" => "configmaps"
  | "service" => "services"
  | "serviceaccount" => "serviceaccounts"
  | "persistentvolume" => "persistentvolumes"
  | "persistentvolumeclaim" => "persistentvolumeclaims"
  | "deployment" => "deployments"
  | "statefulset" => "statefulsets"
  | "daemonset" => "daemonsets"
  | "job" => "jobs"
  | "cronjob" => "cronjobs"
  | "role" => "roles"
  | "rolebinding" => "rolebindings"
  | "clusterrole" => "clusterroles"
  | "clusterrolebinding" => "clusterrolebindings"
  | "ingress" => "ingresses"
  | "networkpolicy" => "networkpolicies"
  | "poddisruptionbudget" => "poddisruptionbudgets"
  | "storageclass" => "storageclasses"
  | _ => resourceType ++ "s"

/-- The per-record test of restore.go:174-201 (the `continue`-based loop is a
filter): the namespace policy — cluster-scoped records pass a non-empty
namespace filter only if it contains `""` or `"cluster"` — followed by the
kind policy matching the lower-cased kind or its plural. -/
def includeRecord (options : RestoreOptions) (r : ResourceWithContent α) : Bool :=
  (if options.namespaces.length > 0 then
    (if r.info.ns = "" then
      options.namespaces.contains "" || options.namespaces.contains "cluster"
     else options.namespaces.contains r.info.ns)
   else true)
  &&
  (if options.resourceTypes.length > 0 then
    (options.resourceTypes.contains (strLower r.info.kind)
     || options.resourceTypes.contains (getResourceTypePlural (strLower r.info.kind)))
   else true)

/-- restore.go:167-204 `filterResources`. -/
def filterResources (resources : List (ResourceWithContent α)) (options : RestoreOptions) :
    List (ResourceWithContent α) :=
  resources.filter (includeRecord options)

/-- The comparator of restore.go:213-227: dependency tier first, then
namespace, then name, each ascending. -/
def resLess (a b : ResourceWithContent α) : Bool :=
  let oa := GetResourceOrder a.info.kind
  let ob := GetResourceOrder b.info.kind
  if oa ≠ ob then decide (oa < ob)
  else if a.info.ns ≠ b.info.ns then strLt a.info.ns b.info.ns
  else strLt a.info.name b.info.name

/-- restore.go:207-230 `sortResourcesByDependency` (`sort.Slice` on a copy of
the input with `resLess`). -/
def sortResourcesByDependency (resources : List (ResourceWithContent α)) :
    List (ResourceWithContent α) :=
  insertionSortBy resLess resources

/-- The data the comparator looks at: (dependency tier, namespace, name). -/
def sortKey (r : ResourceWithContent α) : Nat × String × String :=
  (GetResourceOrder r.info.kind, r.info.ns, r.info.name)

/-- `sortKey`, packaged in the lexicographic order the comparator realizes. -/
def sortKeyL (r : ResourceWithContent α) : Lex (Nat × Lex (String × String)) :=
  toLex (GetResourceOrder r.info.kind, toLex (r.info.ns, r.info.name))

/-- restore.go:233-262 `parseResourceObject`: the document must carry string
`apiVersion` and `kind` fields; the unstructured object then holds the whole
document. -/
def parseResourceObject (doc : YamlDoc) : Except GoError YamlDoc :=
  match doc.apiVersion with
  | none => .error (.msg "missing or invalid apiVersion")
  | some _ =>
    match doc.kind with
    | none => .error (.msg "missing or invalid kind")
    | some _ => .ok doc

/-- restore.go:22-29 `RestoreResult` (`Duration` is wall-clock only and not
modelled). -/
structure RestoreResult where
  processed : Nat
  skipped : Nat
  namespaces : List String
  resourceTypes : List String
  errs : List GoError
deriving DecidableEq, Repr

/-- Insert a string into a `sets.String`-backed accumulator. -/
def insertString (l : List String) (s : String) : List String :=
  if l.contains s then l else l ++ [s]

/-- The mutable state of the apply loop of restore.go:95-143: the cluster
reached so far, the partial `RestoreResult` counters and error list, the two
tracking sets, and the context-observation counter. -/
structure LoopSt where
  cluster : ClusterSt
  processed : Nat
  skipped : Nat
  errs : List GoError
  nsSet : List String
  typeSet : List String
  t : Nat
deriving DecidableEq, Repr

/-- restore.go:95-143, the apply loop of `RestoreBackup`: per record, check
`ctx.Err()` (returning the result built so far with the error), parse the
document, apply it unless dry-run or the client is nil, interpret an
"already exists" apply error as a skip when not overwriting, and otherwise
record the wrapped error and continue; successes bump the processed count and
the tracking sets (the optional post-apply wait only sleeps and logs). -/
def restoreLoop (applyFn : ApplyFn) (hasClient : Bool) (opts : RestoreOptions)
    (cancelAt : Option Nat) : List (ResourceWithContent YamlDoc) → LoopSt →
    LoopSt × Option GoError
  | [], st => (st, none)
  | r :: rs, st =>
    if ctxErr cancelAt st.t then (st, some .contextCanceled)
    else
      let st₁ := { st with t := st.t + 1 }
      match parseResourceObject r.content with
      | .error e =>
        restoreLoop applyFn hasClient opts cancelAt rs
          { st₁ with errs := st₁.errs ++
              [.wrapped ("failed to parse " ++ r.info.kind ++ "/" ++ r.info.name) e] }
      | .ok obj =>
        if !opts.dryRun && hasClient then
          match applyFn obj r.info.ns opts.dryRun st₁.cluster with
          | (.error e, c') =>
            if !opts.overwriteExisting && containsAlreadyExists e then
              restoreLoop applyFn hasClient opts cancelAt rs
                { st₁ with cluster := c', skipped := st₁.skipped + 1 }
            else
              restoreLoop applyFn hasClient opts cancelAt rs
                { st₁ with cluster := c', errs := st₁.errs ++
                    [.wrapped ("failed to apply " ++ r.info.kind ++ "/" ++ r.info.name) e] }
          | (.ok _, c') =>
            restoreLoop applyFn hasClient opts cancelAt rs
              { st₁ with
                cluster := c'
                processed := st₁.processed + 1
                nsSet := insertString st₁.nsSet r.info.ns
                typeSet := insertString st₁.typeSet (strLower r.info.kind) }
        else
          restoreLoop applyFn hasClient opts cancelAt rs
            { st₁ with
              processed := st₁.processed + 1
              nsSet := insertString st₁.nsSet r.info.ns
              typeSet := insertString st₁.typeSet (strLower r.info.kind) }

/-- restore.go:46-164 `Manager.RestoreBackup`: load, filter (returning early
when nothing remains), sort, run the apply loop, and finalize the result —
the sorted tracking sets are only copied into the result on the non-cancelled
exit.  Returns the result, the terminal error, and the final cluster state. -/
def RestoreBackup (applyFn : ApplyFn) (hasClient : Bool) (opts : RestoreOptions)
    (cancelAt : Option Nat) (fs : Fs YamlDoc) (cluster : ClusterSt) (t : Nat) :
    Option RestoreResult × Option GoError × ClusterSt :=
  match LoadBackup cancelAt opts.backupPath fs t with
  | (.error e, _) => (none, some (.wrapped "failed to load backup" e), cluster)
  | (.ok (_, resources), t₁) =>
    let filtered := filterResources resources opts
    if filtered.length = 0 then
      (some { processed := 0, skipped := resources.length, namespaces := [],
              resourceTypes := [], errs := [] : RestoreResult }, none, cluster)
    else
      let sorted := sortResourcesByDependency filtered
      let st₀ : LoopSt :=
        { cluster := cluster, processed := 0,
          skipped := resources.length - filtered.length, errs := [],
          nsSet := [], typeSet := [], t := t₁ }
      match restoreLoop applyFn hasClient opts cancelAt sorted st₀ with
      | (st, some e) =>
        (some { processed := st.processed, skipped := st.skipped, namespaces := [],
                resourceTypes := [], errs := st.errs }, some e, st.cluster)
      | (st, none) =>
        (some { processed := st.processed, skipped := st.skipped,
                namespaces := sortStrings st.nsSet,
                resourceTypes := sortStrings st.typeSet, errs := st.errs },
         none, st.cluster)

/-! ## pkg/backup -/

/-- The cluster-assigned metadata of a listed object, as far as the backup
path reads or clears it (backup.go `cleanObject` and
`convertToResourceWithContent`). -/
structure K8sObj where
  name : String
  labels : List (String × String)
  annotations : List (String × String)
  resourceVersion : String
  uid : String
  generation : Nat
  selfLink : String
  creationTimestamp : Nat
deriving DecidableEq, Repr

/-- backup.go:482-513 `cleanObject`: clear the cluster-assigned fields and
drop the `kubectl.kubernetes.io/last-applied-configuration` annotation and
every annotation under the `deployment.kubernetes.io/` or
`autoscaling.alpha.kubernetes.io/` namespaces. -/
def cleanObject (o : K8sObj) : K8sObj :=
  { o with
    resourceVersion := ""
    uid := ""
    generation := 0
    selfLink := ""
    creationTimestamp := 0
    annotations := o.annotations.filter (fun kv =>
      !(kv.1 == "kubectl.kubernetes.io/last-applied-configuration")
      && !("deployment.kubernetes.io/".data.isPrefixOf kv.1.data)
      && !("autoscaling.alpha.kubernetes.io/".data.isPrefixOf kv.1.data)) }

/-- backup.go:414-435 `getAPIVersionForKind`. -/
def getAPIVersionForKind (kind : String) : String :=
  match kind with
  | "Namespace" | "Service" | "ConfigMap" | "Secret" | "PersistentVolumeClaim"
  | "PersistentVolume" | "ServiceAccount" => "v1"
  | "Deployment" | "StatefulSet" | "DaemonSet" => "apps/v1"
  | "Job" => "batch/v1"
  | "CronJob" => "batch/v1"
  | "Role" | "RoleBinding" | "ClusterRole" | "ClusterRoleBinding" =>
    "rbac.authorization.k8s.io/v1"
  | "Ingress" | "NetworkPolicy" => "networking.k8s.io/v1"
  | "StorageClass" => "storage.k8s.io/v1"
  | "PodDisruptionBudget" => "policy/v1"
  | _ => "v1"

/-- The YAML bytes `yaml.Marshal` produces for a cleaned object with its
GroupVersionKind set (backup.go:371-411): the document determined by the
apiVersion, the kind, and the cleaned object. -/
structure MarshalledObj where
  apiVersion : String
  kind : String
  meta : K8sObj
deriving DecidableEq, Repr

/-- backup.go:371-411 `convertToResourceWithContent`: clean the object, set
its GroupVersionKind, marshal it, and read the (cleaned) metadata into the
`ResourceInfo`. -/
def convertToResourceWithContent (o : K8sObj) (ns kind : String) :
    ResourceWithContent MarshalledObj :=
  let c := cleanObject o
  { content := { apiVersion := getAPIVersionForKind kind, kind := kind, meta := c }
    info := { apiVersion := getAPIVersionForKind kind, kind := kind, ns := ns,
              name := c.name, relativePath := "", labels := c.labels,
              annotations := c.annotations } }

/-- The listing side of the Resource API, per kind and (where applicable)
namespace.  Secrets carry their `Type` string alongside the object. -/
structure ClusterView where
  serverVersion : String
  namespaces : List K8sObj
  deploymentsIn : String → List K8sObj
  servicesIn : String → List K8sObj
  configMapsIn : String → List K8sObj
  secretsIn : String → List (K8sObj × String)
  pvcsIn : String → List K8sObj
  serviceAccountsIn : String → List K8sObj
  rolesIn : String → List K8sObj
  roleBindingsIn : String → List K8sObj
  ingressesIn : String → List K8sObj
  networkPoliciesIn : String → List K8sObj
  statefulSetsIn : String → List K8sObj
  daemonSetsIn : String → List K8sObj
  jobsIn : String → List K8sObj
  cronJobsIn : String → List K8sObj
  podDisruptionBudgetsIn : String → List K8sObj
  persistentVolumes : List K8sObj
  clusterRoles : List K8sObj
  clusterRoleBindings : List K8sObj
  storageClasses : List K8sObj

/-- The common shape of every `backupX` function (backup.go:516-894): list the
objects of one kind, skip those the `keep` predicate rejects, convert the
rest.  `proj` extracts the object from a listing item (the identity except
for secrets, whose items also carry the secret type). -/
def collectObjs (kind ns : String) (objs : List β) (keep : β → Bool)
    (proj : β → K8sObj) : List (ResourceWithContent MarshalledObj) :=
  (objs.filter keep).map (fun b => convertToResourceWithContent (proj b) ns kind)

/-- backup.go:516-532 `backupNamespaces`. -/
def backupNamespaces (cv : ClusterView) : List (ResourceWithContent MarshalledObj) :=
  collectObjs "Namespace" "" cv.namespaces (fun _ => true) id

/-- backup.go:534-550 `backupDeployments`. -/
def backupDeployments (cv : ClusterView) (ns : String) : List (ResourceWithContent MarshalledObj) :=
  collectObjs "Deployment" ns (cv.deploymentsIn ns) (fun _ => true) id

/-- backup.go:552-568 `backupServices`. -/
def backupServices (cv : ClusterView) (ns : String) : List (ResourceWithContent MarshalledObj) :=
  collectObjs "Service" ns (cv.servicesIn ns) (fun _ => true) id

/-- backup.go:570-586 `backupConfigMaps`. -/
def backupConfigMaps (cv : ClusterView) (ns : String) : List (ResourceWithContent MarshalledObj) :=
  collectObjs "ConfigMap" ns (cv.configMapsIn ns) (fun _ => true) id

/-- backup.go:588-609 `backupSecrets`: service-account-token secrets are
skipped (they will be regenerated). -/
def backupSecrets (cv : ClusterView) (ns : String) : List (ResourceWithContent MarshalledObj) :=
  collectObjs "Secret" ns (cv.secretsIn ns)
    (fun s => !(s.2 == "kubernetes.io/service-account-token")) (fun s => s.1)

/-- backup.go:611-627 `backupPersistentVolumeClaims`. -/
def backupPersistentVolumeClaims (cv : ClusterView) (ns : String) :
    List (ResourceWithContent MarshalledObj) :=
  collectObjs "PersistentVolumeClaim" ns (cv.pvcsIn ns) (fun _ => true) id

/-- backup.go:629-645 `backupPersistentVolumes`. -/
def backupPersistentVolumes (cv : ClusterView) : List (ResourceWithContent MarshalledObj) :=
  collectObjs "PersistentVolume" "" cv.persistentVolumes (fun _ => true) id

/-- backup.go:647-668 `backupServiceAccounts`: the `default` service account
is skipped (it is created automatically). -/
def backupServiceAccounts (cv : ClusterView) (ns : String) :
    List (ResourceWithContent MarshalledObj) :=
  collectObjs "ServiceAccount" ns (cv.serviceAccountsIn ns)
    (fun o => !(o.name == "default")) id

/-- backup.go:670-686 `backupRoles`. -/
def backupRoles (cv : ClusterView) (ns : String) : List (ResourceWithContent MarshalledObj) :=
  collectObjs "Role" ns (cv.rolesIn ns) (fun _ => true) id

/-- backup.go:688-704 `backupRoleBindings`. -/
def backupRoleBindings (cv : ClusterView) (ns : String) : List (ResourceWithContent MarshalledObj) :=
  collectObjs "RoleBinding" ns (cv.roleBindingsIn ns) (fun _ => true) id

/-- backup.go:706-727 `backupClusterRoles`: `system:`-prefixed cluster roles
are skipped. -/
def backupClusterRoles (cv : ClusterView) : List (ResourceWithContent MarshalledObj) :=
  collectObjs "ClusterRole" "" cv.clusterRoles
    (fun o => !("system:".data.isPrefixOf o.name.data)) id

/-- backup.go:729-750 `backupClusterRoleBindings`: `system:`-prefixed cluster
role bindings are skipped. -/
def backupClusterRoleBindings (cv : ClusterView) : List (ResourceWithContent MarshalledObj) :=
  collectObjs "ClusterRoleBinding" "" cv.clusterRoleBindings
    (fun o => !("system:".data.isPrefixOf o.name.data)) id

/-- backup.go:752-768 `backupIngresses`. -/
def backupIngresses (cv : ClusterView) (ns : String) : List (ResourceWithContent MarshalledObj) :=
  collectObjs "Ingress" ns (cv.ingressesIn ns) (fun _ => true) id

/-- backup.go:770-786 `backupNetworkPolicies`. -/
def backupNetworkPolicies (cv : ClusterView) (ns : String) :
    List (ResourceWithContent MarshalledObj) :=
  collectObjs "NetworkPolicy" ns (cv.networkPoliciesIn ns) (fun _ => true) id

/-- backup.go:788-804 `backupStatefulSets`. -/
def backupStatefulSets (cv : ClusterView) (ns : String) : List (ResourceWithContent MarshalledObj) :=
  collectObjs "StatefulSet" ns (cv.statefulSetsIn ns) (fun _ => true) id

/-- backup.go:806-822 `backupDaemonSets`. -/
def backupDaemonSets (cv : ClusterView) (ns : String) : List (ResourceWithContent MarshalledObj) :=
  collectObjs "DaemonSet" ns (cv.daemonSetsIn ns) (fun _ => true) id

/-- backup.go:824-840 `backupJobs`. -/
def backupJobs (cv : ClusterView) (ns : String) : List (ResourceWithContent MarshalledObj) :=
  collectObjs "Job" ns (cv.jobsIn ns) (fun _ => true) id

/-- backup.go:842-858 `backupCronJobs`. -/
def backupCronJobs (cv : ClusterView) (ns : String) : List (ResourceWithContent MarshalledObj) :=
  collectObjs "CronJob" ns (cv.cronJobsIn ns) (fun _ => true) id

/-- backup.go:860-876 `backupStorageClasses`. -/
def backupStorageClasses (cv : ClusterView) : List (ResourceWithContent MarshalledObj) :=
  collectObjs "StorageClass" "" cv.storageClasses (fun _ => true) id

/-- backup.go:878-894 `backupPodDisruptionBudgets`. -/
def backupPodDisruptionBudgets (cv : ClusterView) (ns : String) :
    List (ResourceWithContent MarshalledObj) :=
  collectObjs "PodDisruptionBudget" ns (cv.podDisruptionBudgetsIn ns) (fun _ => true) id

/-- backup.go:274-328 `backupClusterScopedResources` (listings modelled total,
so the error list is empty): the requested cluster-scoped kinds, in the
source's fixed order. -/
def backupClusterScopedResources (resourceTypes : List String) (cv : ClusterView) :
    List (ResourceWithContent MarshalledObj) :=
  let has := fun (rt : String) => resourceTypes.contains rt && IsClusterScoped rt
  (if has "namespaces" then backupNamespaces cv else []) ++
  (if has "persistentvolumes" then backupPersistentVolumes cv else []) ++
  (if has "clusterroles" then backupClusterRoles cv else []) ++
  (if has "clusterrolebindings" then backupClusterRoleBindings cv else []) ++
  (if has "storageclasses" then backupStorageClasses cv else [])

/-- backup.go:335-351: the `backupFuncs` table. -/
def backupFuncFor (rt : String) (cv : ClusterView) (ns : String) :
    Option (List (ResourceWithContent MarshalledObj)) :=
  match rt with
  | "deployments" => some (backupDeployments cv ns)
  | "services" => some (backupServices cv ns)
  | "configmaps" => some (backupConfigMaps cv ns)
  | "secrets" => some (backupSecrets cv ns)
  | "persistentvolumeclaims" => some (backupPersistentVolumeClaims cv ns)
  | "serviceaccounts" => some (backupServiceAccounts cv ns)
  | "roles" => some (backupRoles cv ns)
  | "rolebindings" => some (backupRoleBindings cv ns)
  | "ingresses" => some (backupIngresses cv ns)
  | "networkpolicies" => some (backupNetworkPolicies cv ns)
  | "statefulsets" => some (backupStatefulSets cv ns)
  | "daemonsets" => some (backupDaemonSets cv ns)
  | "jobs" => some (backupJobs cv ns)
  | "cronjobs" => some (backupCronJobs cv ns)
  | "poddisruptionbudgets" => some (backupPodDisruptionBudgets cv ns)
  | _ => none

/-- backup.go:330-369 `backupNamespacedResources`: the requested namespaced
kinds of one namespace, in the order of the resource-type list, skipping
cluster-scoped types and types without a backup function. -/
def backupNamespacedResources (ns : String) (resourceTypes : List String)
    (cv : ClusterView) : List (ResourceWithContent MarshalledObj) :=
  resourceTypes.flatMap (fun rt =>
    if IsClusterScoped rt then []
    else (backupFuncFor rt cv ns).getD [])

/-- backup.go:214-245 `getNamespacesToBackup` (listings total): the requested
namespaces, or all of the cluster's, minus the excluded ones, sorted. -/
def getNamespacesToBackup (options : BackupOptions) (cv : ClusterView) : List String :=
  let excl := options.excludeNamespaces
  let nss :=
    if options.namespaces.length > 0 then
      options.namespaces.filter (fun ns => !excl.contains ns)
    else
      (cv.namespaces.map (fun o => o.name)).filter (fun ns => !excl.contains ns)
  sortStrings nss

/-- backup.go:248-272 `getResourceTypesToBackup`. -/
def getResourceTypesToBackup (options : BackupOptions) : List String :=
  let excl := options.excludeResourceTypes
  if options.resourceTypes.length > 0 then
    options.resourceTypes.filter (fun rt => !excl.contains rt)
  else
    SupportedResourceTypes.filter (fun rt => !excl.contains rt)

/-- backup.go:73-135, the fan-out/fan-in: the cluster-scoped task runs
unconditionally; each per-namespace task first checks `ctx.Err()` (at the
fork instant `t`) and contributes nothing once cancellation is observed.  The
fan-in's merge order is arbitrary in Go; the model fixes
cluster-task-first, then namespaces in order. -/
def collectAllResources (cancelAt : Option Nat) (t : Nat) (resourceTypes : List String)
    (nss : List String) (cv : ClusterView) : List (ResourceWithContent MarshalledObj) :=
  backupClusterScopedResources resourceTypes cv ++
    nss.flatMap (fun ns =>
      if ctxErr cancelAt t then [] else backupNamespacedResources ns resourceTypes cv)

/-- backup.go:37-175 `Manager.CreateBackup` (listings total, so the
warning-only collection error list stays empty and is only logged): collect,
build the metadata, save; a failed save yields `nil` metadata and the wrapped
error, a successful one the metadata whose `BackupPath` the save filled in. -/
def CreateBackup (sz : MarshalledObj → Nat) (basePath : String) (cancelAt : Option Nat)
    (options : BackupOptions) (cv : ClusterView) (now : Nat)
    (fs : Fs MarshalledObj) (t : Nat) :
    Option BackupMetadata × Option GoError × Fs MarshalledObj :=
  let nss := getNamespacesToBackup options cv
  let rts := getResourceTypesToBackup options
  let allResources := collectAllResources cancelAt t rts nss cv
  let metadata : BackupMetadata :=
    { name := options.backupName, timestamp := now, version := BackupFormatVersion,
      kubernetesVersion := cv.serverVersion, namespaces := nss, resourceTypes := rts,
      totalResources := allResources.length, backupPath := "", size := 0,
      compress := options.compress }
  match SaveBackup sz basePath cancelAt metadata allResources fs t with
  | (.error e, _, _) => (none, some (.wrapped "failed to save backup" e), fs)
  | (.ok fs', md', _) => (some md', none, fs')

/-! ## Helper lemmas: insertion sort with a key into a linear order -/

theorem insertSortedBy_perm (less : α → α → Bool) (x : α) :
    ∀ l : List α, (insertSortedBy less x l).Perm (x :: l) := by
  intro l
  induction l with
  | nil => simp [insertSortedBy]
  | cons y ys ih =>
    simp only [insertSortedBy]
    by_cases h : less x y = true
    · simp [h]
    · rw [if_neg h]
      exact (ih.cons y).trans (List.Perm.swap x y ys)

theorem mem_insertSortedBy (less : α → α → Bool) (x : α) (l : List α) (z : α)
    (hz : z ∈ insertSortedBy less x l) : z = x ∨ z ∈ l := by
  have := (insertSortedBy_perm less x l).mem_iff.mp hz
  simpa using this

theorem sorted_insertSortedBy {K : Type} [LinearOrder K] (key : α → K)
    (less : α → α → Bool) (hless : ∀ a b, less a b = true ↔ key a < key b) (x : α) :
    ∀ l : List α, l.Pairwise (fun a b => key a ≤ key b) →
      (insertSortedBy less x l).Pairwise (fun a b => key a ≤ key b) := by
  intro l
  induction l with
  | nil => intro _; simp [insertSortedBy]
  | cons y ys ih =>
    intro hp
    rw [List.pairwise_cons] at hp
    simp only [insertSortedBy]
    by_cases h : less x y = true
    · rw [if_pos h]
      rw [List.pairwise_cons]
      constructor
      · intro z hz
        rcases List.mem_cons.mp hz with rfl | hz
        · exact le_of_lt ((hless x z).mp h)
        · exact le_trans (le_of_lt ((hless x y).mp h)) (hp.1 z hz)
      · exact List.pairwise_cons.mpr hp
    · rw [if_neg h]
      rw [List.pairwise_cons]
      constructor
      · intro z hz
        rcases mem_insertSortedBy less x ys z hz with rfl | hz
        · exact le_of_not_lt (fun hlt => h ((hless z y).mpr hlt))
        · exact hp.1 z hz
      · exact ih hp.2

theorem sorted_foldl_insertSortedBy {K : Type} [LinearOrder K] (key : α → K)
    (less : α → α → Bool) (hless : ∀ a b, less a b = true ↔ key a < key b) :
    ∀ (l acc : List α), acc.Pairwise (fun a b => key a ≤ key b) →
      (l.foldl (fun acc x => insertSortedBy less x acc) acc).Pairwise
        (fun a b => key a ≤ key b) := by
  intro l
  induction l with
  | nil => intro acc h; simpa using h
  | cons x xs ih =>
    intro acc h
    simp only [List.foldl_cons]
    exact ih _ (sorted_insertSortedBy key less hless x acc h)

theorem sorted_insertionSortBy {K : Type} [LinearOrder K] (key : α → K)
    (less : α → α → Bool) (hless : ∀ a b, less a b = true ↔ key a < key b)
    (l : List α) :
    (insertionSortBy less l).Pairwise (fun a b => key a ≤ key b) :=
  sorted_foldl_insertSortedBy key less hless l [] (by simp)

theorem foldl_insertSortedBy_perm (less : α → α → Bool) :
    ∀ (l acc : List α),
      (l.foldl (fun acc x => insertSortedBy less x acc) acc).Perm (acc ++ l) := by
  intro l
  induction l with
  | nil => intro acc; simp
  | cons x xs ih =>
    intro acc
    simp only [List.foldl_cons]
    refine (ih (insertSortedBy less x acc)).trans ?h
    refine ((insertSortedBy_perm less x acc).append_right xs).trans ?h2
    simp only [List.cons_append]
    exact List.perm_middle.symm

theorem insertionSortBy_perm (less : α → α → Bool) (l : List α) :
    (insertionSortBy less l).Perm l := by
  simpa [insertionSortBy] using foldl_insertSortedBy_perm less l []

theorem sorted_eq_of_perm {K : Type} [LinearOrder K] (key : α → K) :
    ∀ (l₁ l₂ : List α), l₁.Perm l₂ →
      l₁.Pairwise (fun a b => key a ≤ key b) →
      l₂.Pairwise (fun a b => key a ≤ key b) →
      (l₁.map key).Nodup → l₁ = l₂ := by
  intro l₁
  induction l₁ with
  | nil =>
    intro l₂ hp _ _ _
    exact (hp.symm.eq_nil).symm
  | cons x xs ih =>
    intro l₂ hp h₁ h₂ hnd
    cases l₂ with
    | nil => exact absurd hp.eq_nil (by simp)
    | cons y ys =>
      have hy : y ∈ x :: xs := hp.symm.subset (List.mem_cons_self y ys)
      have hx : x ∈ y :: ys := hp.subset (List.mem_cons_self x xs)
      have hxy : key x ≤ key y := by
        rcases List.mem_cons.mp hy with rfl | hy
        · exact le_refl _
        · exact (List.pairwise_cons.mp h₁).1 y hy
      have hyx : key y ≤ key x := by
        rcases List.mem_cons.mp hx with rfl | hx
        · exact le_refl _
        · exact (List.pairwise_cons.mp h₂).1 x hx
      have hxy2 : x = y :=
        List.inj_on_of_nodup_map hnd (List.mem_cons_self x xs) hy
          (le_antisymm hxy hyx)
      subst hxy2
      have htail : xs = ys := by
        refine ih ys (hp.cons_inv) h₁.of_cons h₂.of_cons ?hnd
        rw [List.map_cons] at hnd
        exact hnd.of_cons
      rw [htail]

/-! ## The sequencer comparator as a lexicographic linear order -/

theorem strLt_iff_data (a b : String) : strLt a b = true ↔ a.data < b.data := by
  rw [strLt, decide_eq_true_iff]

theorem resLess_iff_lt {α : Type} (a b : ResourceWithContent α) :
    resLess a b = true ↔ sortKeyL a < sortKeyL b := by
  unfold resLess sortKeyL
  rw [Prod.Lex.lt_iff]
  by_cases h₁ : GetResourceOrder a.info.kind = GetResourceOrder b.info.kind
  · by_cases h₂ : a.info.ns = b.info.ns
    · simp [h₁, h₂, Prod.Lex.lt_iff, strLt_iff_data]
    · simp [h₁, h₂, Prod.Lex.lt_iff, strLt_iff_data]
  · simp [h₁]

theorem not_resLess_iff {α : Type} (a b : ResourceWithContent α) :
    resLess b a = false ↔ sortKeyL a ≤ sortKeyL b := by
  rw [← not_lt, ← resLess_iff_lt]
  simp

theorem sorted_sortResourcesByDependency {α : Type} (l : List (ResourceWithContent α)) :
    (sortResourcesByDependency l).Pairwise (fun a b => sortKeyL a ≤ sortKeyL b) :=
  sorted_insertionSortBy sortKeyL resLess (fun a b => resLess_iff_lt a b) l

theorem sortResourcesByDependency_perm {α : Type} (l : List (ResourceWithContent α)) :
    (sortResourcesByDependency l).Perm l :=
  insertionSortBy_perm resLess l

theorem sortKeyL_inj_on_nodup {α : Type} (l : List (ResourceWithContent α))
    (hnd : (l.map sortKey).Nodup) : (l.map sortKeyL).Nodup := by
  have hg : Function.Injective
      (fun k : Nat × String × String => toLex (k.1, toLex (k.2.1, k.2.2))) := by
    intro k k' h
    simp only [toLex_inj, Prod.mk.injEq] at h
    obtain ⟨h1, h2, h3⟩ := h
    exact Prod.ext h1 (Prod.ext h2 h3)
  have : l.map sortKeyL =
      (l.map sortKey).map (fun k => toLex (k.1, toLex (k.2.1, k.2.2))) := by
    simp only [List.map_map]
    rfl
  rw [this]
  exact hnd.map hg

/-! ## Claim C3 -/

/-- Claim C3 (amended): for input lists whose records have pairwise-distinct
(kind tier, namespace, name) triples, `sortResourcesByDependency` produces the
identical output sequence on every permutation of the input — the output
order is then a function of tier, namespace and name only.  (Without the
distinctness hypothesis two distinct records can compare equivalent, and the
output order between them follows the input order; see the counterexample.) -/
theorem claim_c3_sequencer_determinism_amended {α : Type}
    (l₁ l₂ : List (ResourceWithContent α)) (hperm : l₁.Perm l₂)
    (hnd : (l₁.map sortKey).Nodup) :
    sortResourcesByDependency l₁ = sortResourcesByDependency l₂ := by
  have hp : (sortResourcesByDependency l₁).Perm (sortResourcesByDependency l₂) :=
    ((sortResourcesByDependency_perm l₁).trans hperm).trans
      (sortResourcesByDependency_perm l₂).symm
  refine sorted_eq_of_perm sortKeyL _ _ hp
    (sorted_sortResourcesByDependency l₁) (sorted_sortResourcesByDependency l₂) ?hnd
  have h₁ : ((sortResourcesByDependency l₁).map sortKeyL).Perm (l₁.map sortKeyL) :=
    (sortResourcesByDependency_perm l₁).map sortKeyL
  exact h₁.symm.nodup (sortKeyL_inj_on_nodup l₁ hnd)

def c3rec (kind name : String) (c : List Nat) : ResourceWithContent (List Nat) :=
  { content := c
    info := { apiVersion := "v1", kind := kind, ns := "a", name := name,
              relativePath := "", labels := [], annotations := [] } }

/-- Claim C3, as stated, is false: two distinct records of unknown kinds
`FooA` and `FooB` share the tier `len(ResourceOrder)` and the same namespace
and name, so the comparator ranks them equivalent and the (insertion) sort
keeps them in input order — the two permutations of the same list produce
different output sequences. -/
theorem claim_c3_counterexample :
    [c3rec "FooA" "x" [1], c3rec "FooB" "x" [2]].Perm
      [c3rec "FooB" "x" [2], c3rec "FooA" "x" [1]] ∧
    (sortResourcesByDependency [c3rec "FooA" "x" [1], c3rec "FooB" "x" [2]]).map
        (fun r => r.info.kind) ≠
      (sortResourcesByDependency [c3rec "FooB" "x" [2], c3rec "FooA" "x" [1]]).map
        (fun r => r.info.kind) := by
  constructor
  · exact List.Perm.swap _ _ _
  · decide

/-- Witness for C3: the amended theorem applied to a concrete permutation of
records with pairwise-distinct sort keys. -/
theorem claim_c3_sequencer_determinism_amended_witness :
    sortResourcesByDependency [c3rec "FooA" "x" [1], c3rec "Namespace" "y" [2]] =
      sortResourcesByDependency [c3rec "Namespace" "y" [2], c3rec "FooA" "x" [1]] :=
  claim_c3_sequencer_determinism_amended _ _ (List.Perm.swap _ _ _) (by decide)

/-! ## Claim C9 -/

def c9svc : ResourceWithContent (List Nat) :=
  { content := [1]
    info := { apiVersion := "v1", kind := "Service", ns := "default", name := "web",
              relativePath := "", labels := [], annotations := [] } }

def c9nsr : ResourceWithContent (List Nat) :=
  { content := [2]
    info := { apiVersion := "v1", kind := "Namespace", ns := "default", name := "default",
              relativePath := "", labels := [], annotations := [] } }

def c9sec : ResourceWithContent (List Nat) :=
  { content := [3]
    info := { apiVersion := "v1", kind := "Secret", ns := "default", name := "db",
              relativePath := "", labels := [], annotations := [] } }

/-- Claim C9: the input kinds [Service, Namespace, Secret] (all in namespace
"default") sort to Namespace, Secret, Service; and in every sorted output a
record of a kind listed in `ResourceOrder` never follows a record of a kind
absent from it (unknown kinds, tier `len(ResourceOrder)`, sort after all
known kinds). -/
theorem claim_c9_sequencer_example :
    (sortResourcesByDependency [c9svc, c9nsr, c9sec]).map (fun r => r.info.kind)
      = ["Namespace", "Secret", "Service"] ∧
    ∀ (α : Type) (l : List (ResourceWithContent α)) (i j : Fin (sortResourcesByDependency l).length),
      i < j →
      GetResourceOrder ((sortResourcesByDependency l).get j).info.kind < ResourceOrder.length →
      GetResourceOrder ((sortResourcesByDependency l).get i).info.kind < ResourceOrder.length := by
  constructor
  · decide
  · intro α l i j hij hj
    have hs := sorted_sortResourcesByDependency l
    have hle := List.pairwise_iff_get.mp hs i j hij
    have hfst := Prod.Lex.monotone_fst _ _ hle
    exact lt_of_le_of_lt hfst hj

/-- Witness for C9: the unknown-after-known property applied to a concrete
sorted list (both positions of known kinds). -/
theorem claim_c9_sequencer_example_witness :
    GetResourceOrder ((sortResourcesByDependency [c9svc, c9sec]).get ⟨0, by decide⟩).info.kind
      < ResourceOrder.length :=
  claim_c9_sequencer_example.2 (List Nat) [c9svc, c9sec] ⟨0, by decide⟩ ⟨1, by decide⟩
    (by decide) (by decide)

/-! ## Claim C6 -/

/-- Claim C6: a cluster-scoped record (empty namespace) passes the restore
filter, in the absence of a resource-type filter, exactly when the namespace
include-set is empty or contains `""` or the token `"cluster"`; in
particular it is included under `{"cluster"}` and excluded under
`{"default"}` (see the witness). -/
theorem claim_c6_filter_cluster_namespace {α : Type} (r : ResourceWithContent α)
    (opts : RestoreOptions) (resources : List (ResourceWithContent α))
    (hns : r.info.ns = "") (hrt : opts.resourceTypes = []) :
    (includeRecord opts r = true ↔
      (opts.namespaces = [] ∨ "" ∈ opts.namespaces ∨ "cluster" ∈ opts.namespaces)) ∧
    (r ∈ filterResources resources opts ↔ r ∈ resources ∧
      (opts.namespaces = [] ∨ "" ∈ opts.namespaces ∨ "cluster" ∈ opts.namespaces)) := by
  have h1 : includeRecord opts r = true ↔
      (opts.namespaces = [] ∨ "" ∈ opts.namespaces ∨ "cluster" ∈ opts.namespaces) := by
    unfold includeRecord
    rw [hns, hrt]
    cases opts.namespaces with
    | nil => simp
    | cons n ns => simp
  refine ⟨h1, ?h2⟩
  rw [filterResources, List.mem_filter, h1]

def c6rec : ResourceWithContent (List Nat) :=
  { content := []
    info := { apiVersion := "rbac.authorization.k8s.io/v1", kind := "ClusterRole", ns := "",
              name := "admin", relativePath := "", labels := [], annotations := [] } }

def c6optsC : RestoreOptions :=
  { backupPath := "", namespaces := ["cluster"], resourceTypes := [], dryRun := false,
    wait := false, timeout := 0, overwriteExisting := false }

def c6optsD : RestoreOptions :=
  { backupPath := "", namespaces := ["default"], resourceTypes := [], dryRun := false,
    wait := false, timeout := 0, overwriteExisting := false }

/-- Witness for C6: the cluster-scoped record is included under include-set
`{"cluster"}` and excluded under include-set `{"default"}`. -/
theorem claim_c6_filter_cluster_namespace_witness :
    includeRecord c6optsC c6rec = true ∧ includeRecord c6optsD c6rec = false := by
  constructor
  · exact (claim_c6_filter_cluster_namespace c6rec c6optsC [] rfl rfl).1.mpr
      (Or.inr (Or.inr (by decide)))
  · have h := (claim_c6_filter_cluster_namespace c6rec c6optsD [] rfl rfl).1
    have hno : ¬ (c6optsD.namespaces = [] ∨ "" ∈ c6optsD.namespaces ∨
        "cluster" ∈ c6optsD.namespaces) := by decide
    cases hb : includeRecord c6optsD c6rec with
    | false => rfl
    | true => exact absurd (h.mp hb) hno

/-! ## Claim C4 -/

theorem restoreLoop_dryRun (f g : ApplyFn) (hasClient : Bool) (opts : RestoreOptions)
    (cancelAt : Option Nat) (hdr : opts.dryRun = true) :
    ∀ (records : List (ResourceWithContent YamlDoc)) (st : LoopSt),
      restoreLoop f hasClient opts cancelAt records st
          = restoreLoop g hasClient opts cancelAt records st ∧
        (restoreLoop f hasClient opts cancelAt records st).1.cluster = st.cluster := by
  intro records
  induction records with
  | nil => intro st; exact ⟨rfl, rfl⟩
  | cons r rs ih =>
    intro st
    simp only [restoreLoop, hdr, Bool.not_true, Bool.false_and]
    by_cases hc : ctxErr cancelAt st.t = true
    · simp [hc]
    · simp only [Bool.not_eq_true] at hc
      simp only [hc, Bool.false_eq_true, if_false]
      cases hp : parseResourceObject r.content with
      | error e => exact ⟨(ih _).1, (ih _).2⟩
      | ok obj => exact ⟨(ih _).1, (ih _).2⟩

/-- Claim C4: in a dry run no create, update or apply call is issued against
the Resource API — the whole restore run is independent of the client's
apply behaviour, and the observable cluster state after the run equals the
state before it. -/
theorem claim_c4_dry_run_purity (f g : ApplyFn) (hasClient : Bool)
    (opts : RestoreOptions) (cancelAt : Option Nat) (fs : Fs YamlDoc)
    (cluster : ClusterSt) (t : Nat) (hdr : opts.dryRun = true) :
    RestoreBackup f hasClient opts cancelAt fs cluster t =
      RestoreBackup g hasClient opts cancelAt fs cluster t ∧
    (RestoreBackup f hasClient opts cancelAt fs cluster t).2.2 = cluster := by
  have hloop := restoreLoop_dryRun f g hasClient opts cancelAt hdr
  unfold RestoreBackup
  rcases hL : LoadBackup cancelAt opts.backupPath fs t with ⟨res, t₁⟩
  cases res with
  | error e => exact ⟨rfl, rfl⟩
  | ok p =>
    rcases p with ⟨m, resources⟩
    dsimp only
    by_cases hf : (filterResources resources opts).length = 0
    · simp only [if_pos hf]
      exact ⟨trivial, trivial⟩
    · simp only [if_neg hf]
      have h1 := (hloop (sortResourcesByDependency (filterResources resources opts))
        { cluster := cluster, processed := 0,
          skipped := resources.length - (filterResources resources opts).length,
          errs := [], nsSet := [], typeSet := [], t := t₁ }).1
      have h2 := (hloop (sortResourcesByDependency (filterResources resources opts))
        { cluster := cluster, processed := 0,
          skipped := resources.length - (filterResources resources opts).length,
          errs := [], nsSet := [], typeSet := [], t := t₁ }).2
      rcases hR : restoreLoop f hasClient opts cancelAt
          (sortResourcesByDependency (filterResources resources opts))
          { cluster := cluster, processed := 0,
            skipped := resources.length - (filterResources resources opts).length,
            errs := [], nsSet := [], typeSet := [], t := t₁ } with ⟨st, oe⟩
      rw [hR] at h1 h2
      simp only [hR, ← h1]
      simp only at h2
      cases oe with
      | none => exact ⟨trivial, h2⟩
      | some e => exact ⟨trivial, h2⟩

def c4fs : Fs YamlDoc :=
  [("backups/b/manifest.yaml", .plain (.manifestFile
    { metadata := { name := "b", timestamp := 0, version := "v1", kubernetesVersion := "v1",
                    namespaces := ["default"], resourceTypes := ["secrets"],
                    totalResources := 1, backupPath := "backups/b", size := 1,
                    compress := false }
      resources := [{ apiVersion := "v1", kind := "Secret", ns := "default", name := "db",
                      relativePath := "default/secret-db.yaml", labels := [],
                      annotations := [] }] })),
   ("backups/b/default/secret-db.yaml", .plain (.file
    { apiVersion := some "v1", kind := some "Secret", metaNs := "default",
      metaName := "db", payload := [] }))]

def c4opts : RestoreOptions :=
  { backupPath := "backups/b", namespaces := [], resourceTypes := [], dryRun := true,
    wait := false, timeout := 0, overwriteExisting := false }

/-- Witness for C4: a concrete dry run over a one-record backup leaves the
cluster untouched and does not depend on the apply behaviour. -/
theorem claim_c4_dry_run_purity_witness :
    (RestoreBackup clusterApplyResource true c4opts none c4fs [] 0 =
      RestoreBackup (fun _ _ _ c => (.error .notFound, c)) true c4opts none c4fs [] 0) ∧
    (RestoreBackup clusterApplyResource true c4opts none c4fs [] 0).2.2 = [] :=
  claim_c4_dry_run_purity clusterApplyResource (fun _ _ _ c => (.error .notFound, c))
    true c4opts none c4fs [] 0 rfl

/-! ## Claim C5 -/

/-- Claim C5: when `overwriteExisting` is false and applying a record fails
with an error whose message contains "already exists", the restore loop
counts the record in `SkippedResources`, appends nothing to the result's
error list, and continues the replay with the remaining records in
sequence. -/
theorem claim_c5_skip_already_exists (applyFn : ApplyFn) (opts : RestoreOptions)
    (cancelAt : Option Nat) (r : ResourceWithContent YamlDoc)
    (rs : List (ResourceWithContent YamlDoc)) (st : LoopSt) (obj : YamlDoc)
    (e : GoError) (c' : ClusterSt)
    (hov : opts.overwriteExisting = false) (hdr : opts.dryRun = false)
    (hctx : ctxErr cancelAt st.t = false)
    (hparse : parseResourceObject r.content = .ok obj)
    (happ : applyFn obj r.info.ns opts.dryRun st.cluster = (.error e, c'))
    (hae : containsAlreadyExists e = true) :
    restoreLoop applyFn true opts cancelAt (r :: rs) st =
      restoreLoop applyFn true opts cancelAt rs
        { st with t := st.t + 1, cluster := c', skipped := st.skipped + 1 } := by
  rw [hdr] at happ
  simp only [restoreLoop, hctx, hparse, hdr, happ, hov, hae, Bool.false_eq_true,
    if_false, Bool.not_false, Bool.true_and, Bool.and_self, if_true]

def c5doc : YamlDoc :=
  { apiVersion := some "v1", kind := some "ConfigMap", metaNs := "default",
    metaName := "cfg", payload := [] }

def c5rec : ResourceWithContent YamlDoc :=
  { content := c5doc
    info := { apiVersion := "v1", kind := "ConfigMap", ns := "default", name := "cfg",
              relativePath := "", labels := [], annotations := [] } }

def c5opts : RestoreOptions :=
  { backupPath := "", namespaces := [], resourceTypes := [], dryRun := false,
    wait := false, timeout := 0, overwriteExisting := false }

/-- A client whose apply always reports the AlreadyExists error. -/
def c5apply : ApplyFn := fun _ _ _ c => (.error .alreadyExists, c)

def c5st : LoopSt :=
  { cluster := [], processed := 0, skipped := 0, errs := [], nsSet := [],
    typeSet := [], t := 0 }

/-- Witness for C5: a concrete already-exists apply failure is recorded as a
skip and the loop proceeds. -/
theorem claim_c5_skip_already_exists_witness :
    restoreLoop c5apply true c5opts none [c5rec] c5st =
      restoreLoop c5apply true c5opts none []
        { c5st with t := c5st.t + 1, cluster := [], skipped := c5st.skipped + 1 } :=
  claim_c5_skip_already_exists c5apply c5opts none c5rec [] c5st c5doc
    .alreadyExists [] rfl rfl rfl rfl rfl rfl

/-! ## Claim C2 -/

def c2doc : YamlDoc :=
  { apiVersion := some "v1", kind := some "Secret", metaNs := "default",
    metaName := "db", payload := [] }

def c2rec : ResourceWithContent YamlDoc :=
  { content := c2doc
    info := { apiVersion := "v1", kind := "Secret", ns := "default", name := "db",
              relativePath := "default/secret-db.yaml", labels := [], annotations := [] } }

def c2opts : RestoreOptions :=
  { backupPath := "", namespaces := [], resourceTypes := [], dryRun := false,
    wait := false, timeout := 0, overwriteExisting := false }

def c2st : LoopSt :=
  { cluster := [], processed := 0, skipped := 0, errs := [], nsSet := [],
    typeSet := [], t := 0 }

/-- Claim C2, evaluated at the failing input: applying the same Secret record
twice through the restore apply path against the repository's client.  With
`overwriteExisting = false` the outcome is processed = 2, skipped = 0 — the
second apply silently updates the existing object inside
`Client.ApplyResource` (create, then update on "already exists") before the
loop's skip branch can see the error, so the claimed `Skipped` outcome never
occurs and the overwrite flag has no effect; with `overwriteExisting = true`
the run is identical (Created then Updated, as claimed). -/
theorem claim_c2_idempotent_apply_bug :
    restoreLoop clusterApplyResource true c2opts none [c2rec, c2rec] c2st =
      ({ cluster := [(("Secret", "default", "db"), c2doc)], processed := 2, skipped := 0,
         errs := [], nsSet := ["default"], typeSet := ["secret"], t := 2 }, none) ∧
    restoreLoop clusterApplyResource true { c2opts with overwriteExisting := true } none
        [c2rec, c2rec] c2st =
      ({ cluster := [(("Secret", "default", "db"), c2doc)], processed := 2, skipped := 0,
         errs := [], nsSet := ["default"], typeSet := ["secret"], t := 2 }, none) := by
  constructor
  · decide
  · decide

/-! ## Claim C7 -/

/-- Claim C7 (amended): when the restore apply loop observes the cancellation
signal before a record, it returns the `RestoreResult` built so far paired
with the cancellation error and leaves the cluster as reached (a clean
partial result); `CreateBackup`, by contrast, returns NO metadata whenever it
returns an error — cancellation included — discarding the partially
collected resources (and a cancellation observed while loading a backup
likewise aborts the restore with no partial result). -/
theorem claim_c7_cancellation_amended :
    (∀ (applyFn : ApplyFn) (hasClient : Bool) (opts : RestoreOptions)
        (cancelAt : Option Nat) (r : ResourceWithContent YamlDoc)
        (rs : List (ResourceWithContent YamlDoc)) (st : LoopSt),
        ctxErr cancelAt st.t = true →
        restoreLoop applyFn hasClient opts cancelAt (r :: rs) st =
          (st, some .contextCanceled)) ∧
    (∀ (sz : MarshalledObj → Nat) (basePath : String) (cancelAt : Option Nat)
        (options : BackupOptions) (cv : ClusterView) (now : Nat)
        (fs : Fs MarshalledObj) (t : Nat),
        ((CreateBackup sz basePath cancelAt options cv now fs t).2.1).isSome = true →
        (CreateBackup sz basePath cancelAt options cv now fs t).1 = none) := by
  constructor
  · intro applyFn hasClient opts cancelAt r rs st h
    simp only [restoreLoop, h, if_true]
  · intro sz basePath cancelAt options cv now fs t h
    unfold CreateBackup at h ⊢
    dsimp only at h ⊢
    split at h
    next heq => simp only [heq]
    next heq => simp at h

def mkObj (name : String) : K8sObj :=
  { name := name, labels := [], annotations := [], resourceVersion := "",
    uid := "", generation := 0, selfLink := "", creationTimestamp := 0 }

def emptyCV : ClusterView :=
  { serverVersion := "v1.28.4", namespaces := [], deploymentsIn := fun _ => [],
    servicesIn := fun _ => [], configMapsIn := fun _ => [], secretsIn := fun _ => [],
    pvcsIn := fun _ => [], serviceAccountsIn := fun _ => [], rolesIn := fun _ => [],
    roleBindingsIn := fun _ => [], ingressesIn := fun _ => [],
    networkPoliciesIn := fun _ => [], statefulSetsIn := fun _ => [],
    daemonSetsIn := fun _ => [], jobsIn := fun _ => [], cronJobsIn := fun _ => [],
    podDisruptionBudgetsIn := fun _ => [], persistentVolumes := [],
    clusterRoles := [], clusterRoleBindings := [], storageClasses := [] }

def c7cv : ClusterView := { emptyCV with namespaces := [mkObj "default"] }

def c7opts : BackupOptions :=
  { namespaces := [], resourceTypes := ["namespaces"], excludeNamespaces := [],
    excludeResourceTypes := [], outputPath := "./backups", backupName := "snap",
    compress := false }

/-- Witness for C7 (amended): the loop part at a concrete cancelled state, and
the backup part at a concrete cancelled run that had collected one resource. -/
theorem claim_c7_cancellation_amended_witness :
    restoreLoop clusterApplyResource true c2opts (some 0) [c2rec] c2st =
      (c2st, some .contextCanceled) ∧
    (CreateBackup (fun _ => 1) "backups" (some 0) c7opts c7cv 0 [] 0).1 = none :=
  ⟨claim_c7_cancellation_amended.1 clusterApplyResource true c2opts (some 0) c2rec [] c2st
      (by decide),
   claim_c7_cancellation_amended.2 (fun _ => 1) "backups" (some 0) c7opts c7cv 0 [] 0
      (by decide)⟩

/-- Claim C7, as stated, is false for the backup half: a backup run whose
cancellation is observed during the save returns `nil` metadata — not a
best-effort partial metadata — together with the wrapped cancellation error,
even though one resource (the `default` namespace) had been collected. -/
theorem claim_c7_counterexample :
    CreateBackup (fun _ => 1) "backups" (some 0) c7opts c7cv 0 [] 0 =
      (none, some (.wrapped "failed to save backup" .contextCanceled), []) ∧
    (collectAllResources (some 0) 0 (getResourceTypesToBackup c7opts)
        (getNamespacesToBackup c7opts c7cv) c7cv).length = 1 := by
  constructor
  · decide
  · decide

/-! ## Helper lemmas: the filesystem model -/

theorem find?_filter_ne {γ : Type} (l : List (String × γ)) (p q : String) (h : q ≠ p) :
    (l.filter (fun e => e.1 != p)).find? (fun e => e.1 == q)
      = l.find? (fun e => e.1 == q) := by
  induction l with
  | nil => rfl
  | cons a l ih =>
    by_cases hq : a.1 = q
    · have hne : (a.1 != p) = true := by simp [hq]; exact h
      rw [List.filter_cons, if_pos (by simp [hne]), List.find?_cons_of_pos _ (by simp [hq]),
        List.find?_cons_of_pos _ (by simp [hq])]
    · by_cases hp : a.1 = p
      · rw [List.filter_cons, if_neg (by simp [hp]), ih,
          List.find?_cons_of_neg _ (by simp [hq])]
      · rw [List.filter_cons, if_pos (by simp [hp]), List.find?_cons_of_neg _ (by simp [hq]),
          List.find?_cons_of_neg _ (by simp [hq]), ih]

theorem getPath_setPath_self {α : Type} (fs : Fs α) (p : String) (e : FsEntry α) :
    getPath (setPath fs p e) p = some e := by
  simp [getPath, setPath]

theorem getPath_setPath_ne {α : Type} (fs : Fs α) (p q : String) (e : FsEntry α)
    (h : q ≠ p) : getPath (setPath fs p e) q = getPath fs q := by
  simp only [getPath, setPath]
  rw [List.find?_cons_of_neg _ (by simpa using Ne.symm h)]
  rw [find?_filter_ne fs p q h]

/-! ## Helper lemmas: path strings -/

theorem str_append_left_cancel {a b c : String} (h : a ++ b = a ++ c) : b = c := by
  apply String.ext
  have h2 := congrArg String.data h
  rw [String.data_append, String.data_append] at h2
  exact List.append_cancel_left h2

theorem slash_mem_relativePathFor (info : ResourceInfo) :
    '/' ∈ (relativePathFor info).data := by
  unfold relativePathFor
  rw [String.data_append, String.data_append]
  refine List.mem_append.mpr (Or.inl (List.mem_append.mpr (Or.inr ?h)))
  decide

theorem relPath_ne_manifest (info : ResourceInfo) :
    relativePathFor info ≠ ManifestFileName := by
  intro h
  have hm : '/' ∈ (ManifestFileName).data := h ▸ slash_mem_relativePathFor info
  revert hm
  decide

/-! ## Helper lemmas: SaveBackup / LoadBackup -/

theorem savePass1_none {α : Type} (sz : α → Nat) :
    ∀ (rs : List (ResourceWithContent α)) (t : Nat),
      savePass1 sz none rs t =
        (.ok (rs.map (fun r => updInfo r.info), (rs.map (fun r => sz r.content)).sum),
         t + rs.length) := by
  intro rs
  induction rs with
  | nil => intro t; simp [savePass1]
  | cons r rs ih =>
    intro t
    simp only [savePass1, ctxErr, Bool.false_eq_true, if_false, ih (t + 1), List.map_cons,
      List.sum_cons, List.length_cons]
    rw [Nat.add_assoc, Nat.add_comm 1 rs.length]

theorem getPath_writeFold_ne {α β : Type} (pathOf : β → String) (entOf : β → FsEntry α) :
    ∀ (ps : List β) (fs : Fs α) (q : String), (∀ b ∈ ps, pathOf b ≠ q) →
      getPath (ps.foldl (fun f b => setPath f (pathOf b) (entOf b)) fs) q = getPath fs q := by
  intro ps
  induction ps with
  | nil => intro fs q _; rfl
  | cons a ps ih =>
    intro fs q hq
    simp only [List.foldl_cons]
    rw [ih _ q (fun b hb => hq b (List.mem_cons_of_mem a hb))]
    exact getPath_setPath_ne fs (pathOf a) q (entOf a)
      (fun he => hq a (List.mem_cons_self a ps) he.symm)

theorem getPath_writeFold_mem {α β : Type} (pathOf : β → String) (entOf : β → FsEntry α) :
    ∀ (ps : List β) (fs : Fs α) (b : β), b ∈ ps → (ps.map pathOf).Nodup →
      getPath (ps.foldl (fun f b => setPath f (pathOf b) (entOf b)) fs) (pathOf b)
        = some (entOf b) := by
  intro ps
  induction ps with
  | nil => intro fs b hb; exact absurd hb (by simp)
  | cons a ps ih =>
    intro fs b hb hnd
    rw [List.map_cons, List.nodup_cons] at hnd
    simp only [List.foldl_cons]
    rcases List.mem_cons.mp hb with rfl | hb
    · rw [getPath_writeFold_ne pathOf entOf ps _ (pathOf b)
        (fun b' hb' he => hnd.1 (he ▸ List.mem_map_of_mem pathOf hb'))]
      exact getPath_setPath_self fs (pathOf b) (entOf b)
    · exact ih _ b hb hnd.2

theorem loadResources_roundtrip {α : Type} (read : String → Option (PlainEntry α)) :
    ∀ (resources : List (ResourceWithContent α)) (t : Nat),
      (∀ r ∈ resources, read (relativePathFor r.info) = some (.file r.content)) →
      loadResources none read (resources.map (fun r => updInfo r.info)) t =
        (.ok (resources.map (fun r => { content := r.content, info := updInfo r.info })),
         t + resources.length) := by
  intro resources
  induction resources with
  | nil => intro t _; simp [loadResources]
  | cons r rs ih =>
    intro t hread
    have hr : read (updInfo r.info).relativePath = some (.file r.content) :=
      hread r (List.mem_cons_self r rs)
    simp only [List.map_cons, loadResources, hr, ctxErr, Bool.false_eq_true, if_false,
      ih (t + 1) (fun r' hr' => hread r' (List.mem_cons_of_mem r hr')), List.length_cons]
    rw [Nat.add_assoc, Nat.add_comm 1 rs.length]

theorem saveBackup_none_eq {α : Type} (sz : α → Nat) (basePath : String)
    (md : BackupMetadata) (resources : List (ResourceWithContent α)) (fs : Fs α)
    (t : Nat) (hcomp : md.compress = false) :
    SaveBackup sz basePath none md resources fs t =
      (.ok (setPath
          (resources.foldl (fun f r =>
              setPath f (basePath ++ "/" ++ md.name ++ "/" ++ relativePathFor r.info)
                (.plain (.file r.content))) fs)
          (basePath ++ "/" ++ md.name ++ "/" ++ ManifestFileName)
          (.plain (.manifestFile
            { metadata :=
                { md with
                  backupPath := basePath ++ "/" ++ md.name
                  size := (resources.map (fun r => sz r.content)).sum }
              resources := resources.map (fun r => updInfo r.info) }))),
       { md with backupPath := basePath ++ "/" ++ md.name }, t + resources.length) := by
  unfold SaveBackup
  rw [savePass1_none]
  dsimp only
  rw [hcomp]
  simp only [Bool.false_eq_true, if_false]
  have hzip : resources.map (fun r => (updInfo r.info, r))
      = (resources.map (fun r => updInfo r.info)).zip (resources.map id) :=
    (List.zip_map' _ _ _).symm
  rw [List.map_id] at hzip
  rw [← hzip, List.foldl_map]
  simp [updInfo]

set_option maxHeartbeats 1000000 in
theorem loadResources_dirReader {α : Type} (fs' : Fs α) (dir : String)
    (resources : List (ResourceWithContent α)) (t : Nat)
    (h : ∀ r ∈ resources, getPath fs' (dir ++ "/" ++ relativePathFor r.info)
        = some (.plain (.file r.content))) :
    loadResources none
      (fun rel =>
        match getPath fs' (dir ++ "/" ++ rel) with
        | some (.plain e) => some e
        | _ => none)
      (resources.map (fun r => updInfo r.info)) t =
      (.ok (resources.map (fun r => { content := r.content, info := updInfo r.info })),
       t + resources.length) := by
  refine loadResources_roundtrip _ resources t ?h2
  intro r hr
  dsimp only
  rw [h r hr]

set_option maxHeartbeats 1000000 in
theorem loadBackup_of_saved {α : Type} (sz : α → Nat) (basePath : String)
    (md : BackupMetadata) (resources : List (ResourceWithContent α)) (fs : Fs α)
    (hsfx : hasSuffix (basePath ++ "/" ++ md.name) ".tar.gz" = false)
    (hnd : (resources.map (fun r => relativePathFor r.info)).Nodup) :
    LoadBackup none (basePath ++ "/" ++ md.name)
      (setPath
        (resources.foldl (fun f r =>
            setPath f (basePath ++ "/" ++ md.name ++ "/" ++ relativePathFor r.info)
              (.plain (.file r.content))) fs)
        (basePath ++ "/" ++ md.name ++ "/" ++ ManifestFileName)
        (.plain (.manifestFile
          { metadata :=
              { md with
                backupPath := basePath ++ "/" ++ md.name
                size := (resources.map (fun r => sz r.content)).sum }
            resources := resources.map (fun r => updInfo r.info) }))) 0 =
      (.ok ({ metadata :=
                { md with
                  backupPath := basePath ++ "/" ++ md.name
                  size := (resources.map (fun r => sz r.content)).sum }
              resources := resources.map (fun r => updInfo r.info) },
            resources.map (fun r => { content := r.content, info := updInfo r.info })),
       resources.length) := by
  have hread : ∀ r ∈ resources,
      getPath
        (setPath
          (resources.foldl (fun f rr =>
              setPath f (basePath ++ "/" ++ md.name ++ "/" ++ relativePathFor rr.info)
                (.plain (.file rr.content))) fs)
          (basePath ++ "/" ++ md.name ++ "/" ++ ManifestFileName)
          (.plain (.manifestFile
            { metadata :=
                { md with
                  backupPath := basePath ++ "/" ++ md.name
                  size := (resources.map (fun r => sz r.content)).sum }
              resources := resources.map (fun r => updInfo r.info) })))
        (basePath ++ "/" ++ md.name ++ "/" ++ relativePathFor r.info)
        = some (.plain (.file r.content)) := by
    intro r hr
    rw [getPath_setPath_ne _ _ _ _ (fun he => relPath_ne_manifest r.info
      (str_append_left_cancel (a := basePath ++ "/" ++ md.name ++ "/") he))]
    refine getPath_writeFold_mem
      (fun rr => basePath ++ "/" ++ md.name ++ "/" ++ relativePathFor rr.info)
      (fun rr => .plain (.file rr.content)) resources fs r hr ?hndfull
    have hmm : resources.map
          (fun rr => basePath ++ "/" ++ md.name ++ "/" ++ relativePathFor rr.info)
        = (resources.map (fun rr => relativePathFor rr.info)).map
            (fun s => basePath ++ "/" ++ md.name ++ "/" ++ s) := by
      rw [List.map_map]
      rfl
    rw [hmm]
    exact hnd.map (fun s₁ s₂ h => str_append_left_cancel h)
  unfold LoadBackup
  dsimp only
  simp only [hsfx, Bool.false_eq_true, if_false]
  rw [getPath_setPath_self]
  dsimp only
  rw [loadResources_dirReader _ _ resources 0 hread]
  dsimp only
  rw [Nat.zero_add]

/-! ## Claim C1 -/

/-- Claim C1 (amended): for metadata with `compress = false` whose backup
directory path does not itself end in ".tar.gz", and records whose computed
relative paths are pairwise distinct (pairwise-distinct identity keys do not
suffice: `<lowercase kind>-<name>` can collide across records, see the
counterexample), loading the path written by `SaveBackup` returns a manifest
whose metadata equals the input metadata except for the timestamp/path fields
and the `size` field — which the save overwrites with the sum of the content
lengths — and a record list with the same identity keys and content bytes as
the input, in the same order. -/
theorem claim_c1_roundtrip_amended {α : Type} (sz : α → Nat) (basePath : String)
    (md : BackupMetadata) (resources : List (ResourceWithContent α)) (fs : Fs α)
    (hcomp : md.compress = false)
    (hsfx : hasSuffix (basePath ++ "/" ++ md.name) ".tar.gz" = false)
    (hnd : (resources.map (fun r => relativePathFor r.info)).Nodup) :
    ∃ (fs' : Fs α) (m : BackupManifest) (rs : List (ResourceWithContent α)),
      SaveBackup sz basePath none md resources fs 0 =
        (.ok fs', { md with backupPath := basePath ++ "/" ++ md.name },
         resources.length) ∧
      (LoadBackup none (basePath ++ "/" ++ md.name) fs' 0).1 = .ok (m, rs) ∧
      metaErasedTPS m.metadata = metaErasedTPS md ∧
      m.metadata.size = (resources.map (fun r => sz r.content)).sum ∧
      rs.map keyContent = resources.map keyContent := by
  refine ⟨setPath
      (resources.foldl (fun f r =>
          setPath f (basePath ++ "/" ++ md.name ++ "/" ++ relativePathFor r.info)
            (.plain (.file r.content))) fs)
      (basePath ++ "/" ++ md.name ++ "/" ++ ManifestFileName)
      (.plain (.manifestFile
        { metadata :=
            { md with
              backupPath := basePath ++ "/" ++ md.name
              size := (resources.map (fun r => sz r.content)).sum }
          resources := resources.map (fun r => updInfo r.info) })),
    { metadata :=
        { md with
          backupPath := basePath ++ "/" ++ md.name
          size := (resources.map (fun r => sz r.content)).sum }
      resources := resources.map (fun r => updInfo r.info) },
    resources.map (fun r => { content := r.content, info := updInfo r.info }),
    ?h1, ?h2, ?h3, ?h4, ?h5⟩
  case h1 =>
    rw [saveBackup_none_eq sz basePath md resources fs 0 hcomp, Nat.zero_add]
  case h2 =>
    rw [loadBackup_of_saved sz basePath md resources fs hsfx hnd]
  case h3 =>
    simp [metaErasedTPS]
  case h4 =>
    rfl
  case h5 =>
    simp [keyContent, updInfo, List.map_map]

def c1md : BackupMetadata :=
  { name := "b", timestamp := 5, version := "v1", kubernetesVersion := "k",
    namespaces := ["x"], resourceTypes := [], totalResources := 1,
    backupPath := "", size := 1, compress := false }

def c1rec : ResourceWithContent (List Nat) :=
  { content := [7]
    info := { apiVersion := "v1", kind := "Secret", ns := "x", name := "db",
              relativePath := "", labels := [], annotations := [] } }

/-- Witness for C1 (amended): a concrete uncompressed one-record save/load
round-trips. -/
theorem claim_c1_roundtrip_amended_witness :
    ∃ (fs' : Fs (List Nat)) (m : BackupManifest)
      (rs : List (ResourceWithContent (List Nat))),
      SaveBackup List.length "backups" none c1md [c1rec] [] 0 =
        (.ok fs', { c1md with backupPath := "backups" ++ "/" ++ c1md.name },
         [c1rec].length) ∧
      (LoadBackup none ("backups" ++ "/" ++ c1md.name) fs' 0).1 = .ok (m, rs) ∧
      metaErasedTPS m.metadata = metaErasedTPS c1md ∧
      m.metadata.size = ([c1rec].map (fun r => List.length r.content)).sum ∧
      rs.map keyContent = [c1rec].map keyContent :=
  claim_c1_roundtrip_amended List.length "backups" c1md [c1rec] [] rfl
    (by decide) (by decide)

/-- The claim's "LoadBackup on the path written by SaveBackup" pipeline at
concrete inputs. -/
def c1loadAfterSave (md : BackupMetadata) (rs : List (ResourceWithContent (List Nat))) :
    Except GoError (BackupManifest × List (ResourceWithContent (List Nat))) :=
  match SaveBackup List.length "backups" none md rs [] 0 with
  | (.ok fs', md', _) => (LoadBackup none md'.backupPath fs' 0).1
  | (.error e, _, _) => .error e

def c1mdA : BackupMetadata :=
  { name := "b", timestamp := 5, version := "v1", kubernetesVersion := "k",
    namespaces := ["x"], resourceTypes := [], totalResources := 1,
    backupPath := "", size := 999, compress := false }

def c1r1 : ResourceWithContent (List Nat) :=
  { content := [1]
    info := { apiVersion := "v1", kind := "A-b", ns := "x", name := "c",
              relativePath := "", labels := [], annotations := [] } }

def c1r2 : ResourceWithContent (List Nat) :=
  { content := [2, 3]
    info := { apiVersion := "v1", kind := "A", ns := "x", name := "b-c",
              relativePath := "", labels := [], annotations := [] } }

/-- Claim C1, as stated, is false, in four independent ways, each at a
concrete input whose identity keys are pairwise distinct: (a) the loaded
metadata differs from an input metadata whose `size` is not the content-length
sum, because the save overwrites `Size` in the manifest copy; (b) with
`compress = true` the path written into the metadata is the directory path,
which the compression step deletes, so the load fails; (c) two records with
distinct identity keys (kinds "A-b"/"A", names "c"/"b-c") collide on the same
relative path, so the first record's content is lost; (d) a backup named
"x.tar.gz" saves as a directory but loads down the archive branch and fails. -/
theorem claim_c1_counterexample :
    ((([c1rec].map (fun r => (r.info.kind, r.info.ns, r.info.name))).Nodup ∧
      (match c1loadAfterSave c1mdA [c1rec] with
       | .ok (m, _) => metaErasedTP m.metadata != metaErasedTP c1mdA
       | .error _ => false) = true) ∧
     (match c1loadAfterSave { c1mdA with compress := true } [c1rec] with
      | .error (.msg s) => s == "failed to read manifest"
      | _ => false) = true) ∧
    ((([c1r1, c1r2].map (fun r => (r.info.kind, r.info.ns, r.info.name))).Nodup ∧
      (match c1loadAfterSave c1mdA [c1r1, c1r2] with
       | .ok (_, rs) => rs.map (fun r => r.content) != [c1r1, c1r2].map (fun r => r.content)
       | .error _ => false) = true) ∧
     (match c1loadAfterSave { c1mdA with name := "x.tar.gz" } [c1rec] with
      | .error (.msg s) => s == "failed to extract backup"
      | _ => false) = true) := by
  refine ⟨⟨⟨?a1, ?a2⟩, ?b⟩, ⟨?cc1, ?cc2⟩, ?d⟩
  case a1 => decide
  case a2 => decide
  case b => decide
  case cc1 => decide
  case cc2 => decide
  case d => decide

/-! ## Helper lemmas: injectivity of the relative-path scheme -/

theorem split_first_sep {γ : Type} (c : γ) :
    ∀ (d₁ d₂ r₁ r₂ : List γ), c ∉ d₁ → c ∉ d₂ →
      d₁ ++ c :: r₁ = d₂ ++ c :: r₂ → d₁ = d₂ ∧ r₁ = r₂ := by
  intro d₁
  induction d₁ with
  | nil =>
    intro d₂ r₁ r₂ _ h₂ h
    cases d₂ with
    | nil => simpa using h
    | cons e d₂ =>
      rw [List.nil_append, List.cons_append, List.cons.injEq] at h
      exact absurd (h.1 ▸ List.mem_cons_self e d₂) h₂
  | cons a d₁ ih =>
    intro d₂ r₁ r₂ h₁ h₂ h
    cases d₂ with
    | nil =>
      rw [List.cons_append, List.nil_append, List.cons.injEq] at h
      exact absurd (h.1.symm ▸ List.mem_cons_self a d₁) h₁
    | cons b d₂ =>
      rw [List.cons_append, List.cons_append, List.cons.injEq] at h
      have hr := ih d₂ r₁ r₂ (fun hm => h₁ (List.mem_cons_of_mem a hm))
        (fun hm => h₂ (List.mem_cons_of_mem b hm)) h.2
      exact ⟨by rw [h.1, hr.1], hr.2⟩

theorem relativePathFor_data (i : ResourceInfo) :
    (relativePathFor i).data =
      (if i.ns ≠ "" then i.ns else "cluster").data ++
        '/' :: ((strLower i.kind).data ++ '-' :: (i.name.data ++ ".yaml".data)) := by
  unfold relativePathFor
  have hs : ("/" : String).data = ['/'] := rfl
  have hd : ("-" : String).data = ['-'] := rfl
  simp [String.data_append, hs, hd, List.append_assoc]

theorem relativePathFor_inj (i₁ i₂ : ResourceInfo)
    (hk₁ : '-' ∉ (strLower i₁.kind).data) (hk₂ : '-' ∉ (strLower i₂.kind).data)
    (hs₁ : '/' ∉ i₁.ns.data) (hs₂ : '/' ∉ i₂.ns.data)
    (hc₁ : i₁.ns ≠ "cluster") (hc₂ : i₂.ns ≠ "cluster")
    (hlow : strLower i₁.kind = strLower i₂.kind → i₁.kind = i₂.kind)
    (heq : relativePathFor i₁ = relativePathFor i₂) :
    i₁.kind = i₂.kind ∧ i₁.ns = i₂.ns ∧ i₁.name = i₂.name := by
  have h := congrArg String.data heq
  rw [relativePathFor_data, relativePathFor_data] at h
  have hd₁ : '/' ∉ (if i₁.ns ≠ "" then i₁.ns else "cluster").data := by
    by_cases hn : i₁.ns = ""
    · simp [hn]
    · simpa [hn] using hs₁
  have hd₂ : '/' ∉ (if i₂.ns ≠ "" then i₂.ns else "cluster").data := by
    by_cases hn : i₂.ns = ""
    · simp [hn]
    · simpa [hn] using hs₂
  obtain ⟨hdir, hrest⟩ := split_first_sep '/' _ _ _ _ hd₁ hd₂ h
  obtain ⟨hlk, htail⟩ := split_first_sep '-' _ _ _ _ hk₁ hk₂ hrest
  have hkind : i₁.kind = i₂.kind := hlow (String.ext hlk)
  have hname : i₁.name = i₂.name := String.ext (List.append_cancel_right htail)
  have hns : i₁.ns = i₂.ns := by
    have hdir' := String.ext hdir
    by_cases hn₁ : i₁.ns = ""
    · by_cases hn₂ : i₂.ns = ""
      · rw [hn₁, hn₂]
      · rw [if_neg (by simpa using hn₁), if_pos (by simpa using hn₂)] at hdir'
        exact absurd hdir'.symm hc₂
    · by_cases hn₂ : i₂.ns = ""
      · rw [if_pos (by simpa using hn₁), if_neg (by simpa using hn₂)] at hdir'
        exact absurd hdir' hc₁
      · rw [if_pos (by simpa using hn₁), if_pos (by simpa using hn₂)] at hdir'
        exact hdir'
  exact ⟨hkind, hns, hname⟩

theorem relativePaths_nodup_of (rs : List ResourceInfo)
    (hself : ∀ r ∈ rs, r.relativePath = relativePathFor r)
    (hid : (rs.map (fun r => (r.kind, r.ns, r.name))).Nodup)
    (hk : ∀ r ∈ rs, '-' ∉ (strLower r.kind).data)
    (hs : ∀ r ∈ rs, '/' ∉ r.ns.data)
    (hc : ∀ r ∈ rs, r.ns ≠ "cluster")
    (hlow : ∀ r ∈ rs, ∀ r' ∈ rs, strLower r.kind = strLower r'.kind → r.kind = r'.kind) :
    (rs.map (fun r => r.relativePath)).Nodup := by
  refine List.Nodup.map_on ?hinj (List.Nodup.of_map _ hid)
  intro a ha b hb hab
  rw [hself a ha, hself b hb] at hab
  obtain ⟨h1, h2, h3⟩ := relativePathFor_inj a b (hk a ha) (hk b hb) (hs a ha) (hs b hb)
    (hc a ha) (hc b hb) (hlow a ha b hb) hab
  exact List.inj_on_of_nodup_map hid ha hb (by rw [h1, h2, h3])

theorem savePass1_ok {α : Type} (sz : α → Nat) (cancelAt : Option Nat) :
    ∀ (rs : List (ResourceWithContent α)) (t : Nat) (infos : List ResourceInfo)
      (n t' : Nat), savePass1 sz cancelAt rs t = (.ok (infos, n), t') →
      infos = rs.map (fun r => updInfo r.info) := by
  intro rs
  induction rs with
  | nil =>
    intro t infos n t' h
    simp only [savePass1, Prod.mk.injEq, Except.ok.injEq] at h
    rw [← h.1.1]
    rfl
  | cons r rs ih =>
    intro t infos n t' h
    simp only [savePass1] at h
    by_cases hc : ctxErr cancelAt t = true
    · rw [if_pos hc] at h
      simp only [Prod.mk.injEq] at h
      exact absurd h.1 (by simp)
    · rw [if_neg hc] at h
      rcases h2 : savePass1 sz cancelAt rs (t + 1) with ⟨res, t₂⟩
      rw [h2] at h
      cases res with
      | error e =>
        dsimp only at h
        simp only [Prod.mk.injEq] at h
        exact absurd h.1 (by simp)
      | ok p =>
        rcases p with ⟨infos', n'⟩
        dsimp only at h
        simp only [Prod.mk.injEq, Except.ok.injEq] at h
        rw [← h.1.1, List.map_cons, ih (t + 1) infos' n' t₂ (by rw [h2])]

theorem saveBackup_ok_shape {α : Type} (sz : α → Nat) (basePath : String)
    (md₀ : BackupMetadata) (resources : List (ResourceWithContent α)) (fs : Fs α)
    (t : Nat) (cancelAt : Option Nat) (fs₂ : Fs α) (md' : BackupMetadata) (t' : Nat)
    (hcomp : md₀.compress = false)
    (heq : SaveBackup sz basePath cancelAt md₀ resources fs t = (.ok fs₂, md', t')) :
    md' = { md₀ with backupPath := basePath ++ "/" ++ md₀.name } ∧
    ∃ total, getPath fs₂ (basePath ++ "/" ++ md₀.name ++ "/" ++ ManifestFileName)
      = some (.plain (.manifestFile
        { metadata :=
            { md₀ with
              backupPath := basePath ++ "/" ++ md₀.name
              size := total }
          resources := resources.map (fun r => updInfo r.info) })) := by
  unfold SaveBackup at heq
  dsimp only at heq
  rcases h2 : savePass1 sz cancelAt resources t with ⟨res, t₂⟩
  rw [h2] at heq
  cases res with
  | error e =>
    dsimp only at heq
    simp only [Prod.mk.injEq] at heq
    exact absurd heq.1 (by simp)
  | ok p =>
    rcases p with ⟨infos, total⟩
    dsimp only at heq
    rw [hcomp] at heq
    simp only [Bool.false_eq_true, if_false, Prod.mk.injEq, Except.ok.injEq] at heq
    obtain ⟨hfs, hmd, -⟩ := heq
    rw [hcomp]
    refine ⟨hmd.symm, total, ?hget⟩
    rw [← hfs]
    rw [savePass1_ok sz cancelAt resources t infos total t₂ h2]
    exact getPath_setPath_self _ _ _

/-! ## Claim C8 -/

/-- Claim C8 (amended): for every manifest written by a successful
`CreateBackup` (uncompressed), the length of the manifest's records array
equals `totalResources`; and the relative paths are pairwise distinct
provided the identity keys are pairwise distinct AND no namespace contains
'/' or is the literal "cluster", the lower-cased kinds contain no '-', and
lower-casing is injective on the kinds present (all of which hold for the
kinds the collector emits and for Kubernetes-legal names — but
pairwise-distinct identity keys alone do not suffice, see the
counterexample). -/
theorem claim_c8_manifest_invariants_amended
    (sz : MarshalledObj → Nat) (basePath : String) (cancelAt : Option Nat)
    (options : BackupOptions) (cv : ClusterView) (now : Nat) (fs : Fs MarshalledObj)
    (t : Nat) (md : BackupMetadata) (fs' : Fs MarshalledObj) (m : BackupManifest)
    (hcomp : options.compress = false)
    (hrun : CreateBackup sz basePath cancelAt options cv now fs t = (some md, none, fs'))
    (hm : getPath fs' (md.backupPath ++ "/" ++ ManifestFileName)
        = some (.plain (.manifestFile m))) :
    m.resources.length = m.metadata.totalResources ∧
    (((m.resources.map (fun r => (r.kind, r.ns, r.name))).Nodup ∧
      (∀ r ∈ m.resources, '-' ∉ (strLower r.kind).data) ∧
      (∀ r ∈ m.resources, '/' ∉ r.ns.data) ∧
      (∀ r ∈ m.resources, r.ns ≠ "cluster") ∧
      (∀ r ∈ m.resources, ∀ r' ∈ m.resources,
        strLower r.kind = strLower r'.kind → r.kind = r'.kind)) →
      (m.resources.map (fun r => r.relativePath)).Nodup) := by
  unfold CreateBackup at hrun
  dsimp only at hrun
  split at hrun
  · simp at hrun
  · rename_i fs₂ md' t'' heq
    obtain ⟨hmd', total, hget⟩ := saveBackup_ok_shape sz basePath _ _ fs t cancelAt
      fs₂ md' t'' hcomp heq
    simp only [Prod.mk.injEq, Option.some.injEq] at hrun
    obtain ⟨hmd, -, hfs⟩ := hrun
    rw [← hmd, ← hfs, hmd'] at hm
    dsimp only at hm
    have hmm := (hget.symm.trans hm)
    simp only [Option.some.injEq, FsEntry.plain.injEq, PlainEntry.manifestFile.injEq] at hmm
    rw [← hmm]
    constructor
    · simp
    · intro ⟨hid, hk, hs, hc, hlow⟩
      refine relativePaths_nodup_of _ ?hself hid hk hs hc hlow
      intro r hr
      dsimp only at hr
      obtain ⟨i, -, rfl⟩ := List.mem_map.mp hr
      rfl

def c8opts : BackupOptions :=
  { namespaces := ["default"], resourceTypes := ["services", "secrets"],
    excludeNamespaces := [], excludeResourceTypes := [], outputPath := "./backups",
    backupName := "snap", compress := false }

def c8cv : ClusterView :=
  { emptyCV with
    namespaces := [mkObj "default"]
    servicesIn := fun ns => if ns = "default" then [mkObj "web"] else []
    secretsIn := fun ns => if ns = "default" then [(mkObj "db", "Opaque")] else [] }

def c8out : Option BackupMetadata × Option GoError × Fs MarshalledObj :=
  CreateBackup (fun _ => 1) "backups" none c8opts c8cv 0 [] 0

def c8dummyMd : BackupMetadata :=
  { name := "", timestamp := 0, version := "", kubernetesVersion := "",
    namespaces := [], resourceTypes := [], totalResources := 0, backupPath := "",
    size := 0, compress := false }

def c8md : BackupMetadata := c8out.1.getD c8dummyMd

def c8fs : Fs MarshalledObj := c8out.2.2

def c8m : BackupManifest :=
  match getPath c8fs (c8md.backupPath ++ "/" ++ ManifestFileName) with
  | some (.plain (.manifestFile m)) => m
  | _ => { metadata := c8dummyMd, resources := [] }

/-- Witness for C8 (amended): the length invariant and path uniqueness hold
for the manifest of a concrete two-record backup. -/
theorem claim_c8_manifest_invariants_amended_witness :
    c8m.resources.length = c8m.metadata.totalResources ∧
    (c8m.resources.map (fun r => r.relativePath)).Nodup :=
  have h := claim_c8_manifest_invariants_amended (fun _ => 1) "backups" none c8opts c8cv
    0 [] 0 c8md c8fs c8m (by decide) (by decide) (by decide)
  ⟨h.1, h.2 (by decide)⟩

def c8ceOpts : BackupOptions :=
  { namespaces := [], resourceTypes := ["secrets"], excludeNamespaces := [],
    excludeResourceTypes := [], outputPath := "./backups", backupName := "snap",
    compress := false }

def c8ceCV : ClusterView :=
  { emptyCV with
    namespaces := [mkObj "a", mkObj "a/secret-q"]
    secretsIn := fun ns =>
      if ns = "a" then [(mkObj "q/secret-n2", "Opaque")]
      else if ns = "a/secret-q" then [(mkObj "n2", "Opaque")] else [] }

/-- Claim C8, as stated, is false: a successful CreateBackup over a cluster
whose namespaces are "a" and "a/secret-q" (names the code never validates),
holding secrets named "q/secret-n2" and "n2" respectively, produces a
manifest whose identity keys are pairwise distinct yet whose two records
share the relative path "a/secret-q/secret-n2.yaml" — the second write
overwrites the first. -/
theorem claim_c8_counterexample :
    (match CreateBackup (fun _ => 1) "backups" none c8ceOpts c8ceCV 0 [] 0 with
     | (some md, none, fs') =>
       (match getPath fs' (md.backupPath ++ "/" ++ ManifestFileName) with
        | some (.plain (.manifestFile m)) =>
          decide ((m.resources.map (fun r => (r.kind, r.ns, r.name))).Nodup) &&
          !(decide ((m.resources.map (fun r => r.relativePath)).Nodup))
        | _ => false)
     | _ => false) = true := by decide

/-! ## Helper lemmas: provenance of collected records -/

theorem mem_if_nil {γ : Type} {c : Prop} [Decidable c] {l : List γ} {x : γ}
    (h : x ∈ (if c then l else [])) : x ∈ l := by
  split at h
  · exact h
  · exact absurd h (by simp)

theorem mem_if_nil2 {γ : Type} {c : Prop} [Decidable c] {l : List γ} {x : γ}
    (h : x ∈ (if c then [] else l)) : x ∈ l := by
  split at h
  · exact absurd h (by simp)
  · exact h

theorem convert_info_kind (o : K8sObj) (nsv kind : String) :
    (convertToResourceWithContent o nsv kind).info.kind = kind := rfl

theorem convert_info_ns (o : K8sObj) (nsv kind : String) :
    (convertToResourceWithContent o nsv kind).info.ns = nsv := rfl

theorem convert_info_name (o : K8sObj) (nsv kind : String) :
    (convertToResourceWithContent o nsv kind).info.name = o.name := rfl

theorem mem_collectObjs_elim {β : Type} {kind nsv : String} {objs : List β}
    {keep : β → Bool} {proj : β → K8sObj} {r : ResourceWithContent MarshalledObj}
    (h : r ∈ collectObjs kind nsv objs keep proj) :
    ∃ b, b ∈ objs ∧ keep b = true ∧ r = convertToResourceWithContent (proj b) nsv kind := by
  rw [collectObjs] at h
  rcases List.mem_map.mp h with ⟨b, hb, rfl⟩
  rcases List.mem_filter.mp hb with ⟨hmem, hkeep⟩
  exact ⟨b, hmem, hkeep, rfl⟩

/-- The skip-rule shape of every collected record, for the four rules of
backup.go: no `default`-named ServiceAccount record, no `system:`-prefixed
ClusterRole/ClusterRoleBinding record, and every Secret record stems from a
listed secret whose type is not the service-account token type. -/
def collectedShape (cv : ClusterView) (r : ResourceWithContent MarshalledObj) : Prop :=
  (r.info.kind = "ServiceAccount" → r.info.name ≠ "default") ∧
  (r.info.kind = "ClusterRole" → "system:".data.isPrefixOf r.info.name.data = false) ∧
  (r.info.kind = "ClusterRoleBinding" →
    "system:".data.isPrefixOf r.info.name.data = false) ∧
  (r.info.kind = "Secret" → ∃ p, p ∈ cv.secretsIn r.info.ns ∧
    p.2 ≠ "kubernetes.io/service-account-token" ∧ p.1.name = r.info.name)

theorem collectQ_other {β : Type} {kind nsv : String} {objs : List β}
    {keep : β → Bool} {proj : β → K8sObj} {r : ResourceWithContent MarshalledObj}
    {cv : ClusterView} (h : r ∈ collectObjs kind nsv objs keep proj)
    (h1 : kind ≠ "ServiceAccount") (h2 : kind ≠ "ClusterRole")
    (h3 : kind ≠ "ClusterRoleBinding") (h4 : kind ≠ "Secret") :
    collectedShape cv r := by
  obtain ⟨b, hb, hkeep, rfl⟩ := mem_collectObjs_elim h
  exact ⟨fun hk => absurd hk h1, fun hk => absurd hk h2, fun hk => absurd hk h3,
         fun hk => absurd hk h4⟩

theorem collectAll_shape (cancelAt : Option Nat) (t : Nat) (rts nss : List String)
    (cv : ClusterView) :
    ∀ r ∈ collectAllResources cancelAt t rts nss cv, collectedShape cv r := by
  intro r hr
  rw [collectAllResources] at hr
  rcases List.mem_append.mp hr with hcl | hns
  · rw [backupClusterScopedResources] at hcl
    dsimp only at hcl
    rcases List.mem_append.mp hcl with h | h
    case inr =>
      -- storage classes
      exact collectQ_other (mem_if_nil h) (by decide) (by decide) (by decide) (by decide)
    rcases List.mem_append.mp h with h | h
    case inr =>
      -- cluster role bindings
      obtain ⟨o, ho, hkeep, rfl⟩ := mem_collectObjs_elim (mem_if_nil h)
      refine ⟨fun hk => ?h1, fun hk => ?h2, fun _ => ?hp, fun hk => ?h4⟩
      case h1 => rw [convert_info_kind] at hk; exact absurd hk (by decide)
      case h2 => rw [convert_info_kind] at hk; exact absurd hk (by decide)
      case h4 => rw [convert_info_kind] at hk; exact absurd hk (by decide)
      case hp =>
        rw [convert_info_name]
        simpa using hkeep
    rcases List.mem_append.mp h with h | h
    case inr =>
      -- cluster roles
      obtain ⟨o, ho, hkeep, rfl⟩ := mem_collectObjs_elim (mem_if_nil h)
      refine ⟨fun hk => ?g1, fun _ => ?hp2, fun hk => ?g3, fun hk => ?g4⟩
      case g1 => rw [convert_info_kind] at hk; exact absurd hk (by decide)
      case g3 => rw [convert_info_kind] at hk; exact absurd hk (by decide)
      case g4 => rw [convert_info_kind] at hk; exact absurd hk (by decide)
      case hp2 =>
        rw [convert_info_name]
        simpa using hkeep
    rcases List.mem_append.mp h with h | h
    case inr =>
      -- persistent volumes
      exact collectQ_other (mem_if_nil h) (by decide) (by decide) (by decide) (by decide)
    case inl =>
      -- namespaces
      exact collectQ_other (mem_if_nil h) (by decide) (by decide) (by decide) (by decide)
  · rcases List.mem_flatMap.mp hns with ⟨ns, hnsmem, h⟩
    have h := mem_if_nil2 h
    rw [backupNamespacedResources] at h
    rcases List.mem_flatMap.mp h with ⟨rt, hrtmem, h⟩
    have h2 := mem_if_nil2 h
    rcases hbf : backupFuncFor rt cv ns with _ | res
    · rw [hbf] at h2
      exact absurd h2 (by simp)
    · rw [hbf] at h2
      dsimp only [Option.getD] at h2
      unfold backupFuncFor at hbf
      split at hbf
      · -- deployments
        rw [Option.some.injEq] at hbf; subst hbf
        exact collectQ_other h2 (by decide) (by decide) (by decide) (by decide)
      · -- services
        rw [Option.some.injEq] at hbf; subst hbf
        exact collectQ_other h2 (by decide) (by decide) (by decide) (by decide)
      · -- configmaps
        rw [Option.some.injEq] at hbf; subst hbf
        exact collectQ_other h2 (by decide) (by decide) (by decide) (by decide)
      · -- secrets
        rw [Option.some.injEq] at hbf; subst hbf
        obtain ⟨p, hp, hkeep, rfl⟩ := mem_collectObjs_elim h2
        refine ⟨fun hk => ?s1, fun hk => ?s2, fun hk => ?s3, fun _ => ?hsec⟩
        case s1 => rw [convert_info_kind] at hk; exact absurd hk (by decide)
        case s2 => rw [convert_info_kind] at hk; exact absurd hk (by decide)
        case s3 => rw [convert_info_kind] at hk; exact absurd hk (by decide)
        case hsec =>
          rw [convert_info_ns, convert_info_name]
          exact ⟨p, hp, by simpa using hkeep, rfl⟩
      · -- persistentvolumeclaims
        rw [Option.some.injEq] at hbf; subst hbf
        exact collectQ_other h2 (by decide) (by decide) (by decide) (by decide)
      · -- serviceaccounts
        rw [Option.some.injEq] at hbf; subst hbf
        obtain ⟨o, ho, hkeep, rfl⟩ := mem_collectObjs_elim h2
        refine ⟨fun _ => ?hsa, fun hk => ?a2, fun hk => ?a3, fun hk => ?a4⟩
        case a2 => rw [convert_info_kind] at hk; exact absurd hk (by decide)
        case a3 => rw [convert_info_kind] at hk; exact absurd hk (by decide)
        case a4 => rw [convert_info_kind] at hk; exact absurd hk (by decide)
        case hsa =>
          rw [convert_info_name]
          simpa using hkeep
      · -- roles
        rw [Option.some.injEq] at hbf; subst hbf
        exact collectQ_other h2 (by decide) (by decide) (by decide) (by decide)
      · -- rolebindings
        rw [Option.some.injEq] at hbf; subst hbf
        exact collectQ_other h2 (by decide) (by decide) (by decide) (by decide)
      · -- ingresses
        rw [Option.some.injEq] at hbf; subst hbf
        exact collectQ_other h2 (by decide) (by decide) (by decide) (by decide)
      · -- networkpolicies
        rw [Option.some.injEq] at hbf; subst hbf
        exact collectQ_other h2 (by decide) (by decide) (by decide) (by decide)
      · -- statefulsets
        rw [Option.some.injEq] at hbf; subst hbf
        exact collectQ_other h2 (by decide) (by decide) (by decide) (by decide)
      · -- daemonsets
        rw [Option.some.injEq] at hbf; subst hbf
        exact collectQ_other h2 (by decide) (by decide) (by decide) (by decide)
      · -- jobs
        rw [Option.some.injEq] at hbf; subst hbf
        exact collectQ_other h2 (by decide) (by decide) (by decide) (by decide)
      · -- cronjobs
        rw [Option.some.injEq] at hbf; subst hbf
        exact collectQ_other h2 (by decide) (by decide) (by decide) (by decide)
      · -- poddisruptionbudgets
        rw [Option.some.injEq] at hbf; subst hbf
        exact collectQ_other h2 (by decide) (by decide) (by decide) (by decide)
      · -- default: no backup function
        exact absurd hbf (by simp)

/-- Claim C10: during collection, CreateBackup silently omits objects present
in the source store: every Secret of type kubernetes.io/service-account-token
(given that every secret of that name in the namespace is token-typed — the
manifest records no secret type, so the record is tied back to its source by
namespace and name), every ServiceAccount named "default", and every
ClusterRole or ClusterRoleBinding whose name begins with "system:" produce no
record in the saved snapshot's manifest; the skip branches construct no error
value, so nothing is reported. -/
theorem claim_c10_silent_omissions
    (sz : MarshalledObj → Nat) (basePath : String) (cancelAt : Option Nat)
    (options : BackupOptions) (cv : ClusterView) (now : Nat) (fs : Fs MarshalledObj)
    (t : Nat) (md : BackupMetadata) (fs' : Fs MarshalledObj) (m : BackupManifest)
    (n nm : String)
    (hcomp : options.compress = false)
    (hrun : CreateBackup sz basePath cancelAt options cv now fs t = (some md, none, fs'))
    (hm : getPath fs' (md.backupPath ++ "/" ++ ManifestFileName)
        = some (.plain (.manifestFile m)))
    (huniq : ∀ p ∈ cv.secretsIn n, p.1.name = nm →
      p.2 = "kubernetes.io/service-account-token") :
    ∀ info ∈ m.resources,
      ¬(info.kind = "ServiceAccount" ∧ info.name = "default") ∧
      (info.kind = "ClusterRole" → "system:".data.isPrefixOf info.name.data = false) ∧
      (info.kind = "ClusterRoleBinding" →
        "system:".data.isPrefixOf info.name.data = false) ∧
      ¬(info.kind = "Secret" ∧ info.ns = n ∧ info.name = nm) := by
  unfold CreateBackup at hrun
  dsimp only at hrun
  split at hrun
  · simp at hrun
  · rename_i fs₂ md' t'' heq
    obtain ⟨hmd', total, hget⟩ := saveBackup_ok_shape sz basePath _ _ fs t cancelAt
      fs₂ md' t'' hcomp heq
    simp only [Prod.mk.injEq, Option.some.injEq] at hrun
    obtain ⟨hmd, -, hfs⟩ := hrun
    rw [← hmd, ← hfs, hmd'] at hm
    dsimp only at hm
    have hmm := (hget.symm.trans hm)
    simp only [Option.some.injEq, FsEntry.plain.injEq, PlainEntry.manifestFile.injEq] at hmm
    rw [← hmm]
    intro info hinfo
    dsimp only at hinfo
    obtain ⟨r, hr, rfl⟩ := List.mem_map.mp hinfo
    obtain ⟨q1, q2, q3, q4⟩ := collectAll_shape cancelAt t _ _ cv r hr
    refine ⟨?w1, fun hk => q2 hk, fun hk => q3 hk, ?w4⟩
    case w1 =>
      rintro ⟨hk, hn⟩
      exact q1 hk hn
    case w4 =>
      rintro ⟨hk, hns, hn⟩
      obtain ⟨p, hp, hpt, hpn⟩ := q4 hk
      have hns2 : r.info.ns = n := hns
      have hn2 : r.info.name = nm := hn
      rw [hns2] at hp
      exact hpt (huniq p hp (hpn.trans hn2))

def c10opts : BackupOptions :=
  { namespaces := ["default"]
    resourceTypes := ["secrets", "serviceaccounts", "clusterroles", "clusterrolebindings"]
    excludeNamespaces := []
    excludeResourceTypes := []
    outputPath := "./backups"
    backupName := "snap10"
    compress := false }

def c10cv : ClusterView :=
  { emptyCV with
    namespaces := [mkObj "default"]
    serviceAccountsIn := fun ns =>
      if ns = "default" then [mkObj "default", mkObj "app"] else []
    secretsIn := fun ns =>
      if ns = "default" then
        [(mkObj "db", "Opaque"),
         (mkObj "sa-token", "kubernetes.io/service-account-token")]
      else []
    clusterRoles := [mkObj "admin", mkObj "system:basic-user"]
    clusterRoleBindings := [mkObj "edit-binding", mkObj "system:basic-binding"] }

def c10out : Option BackupMetadata × Option GoError × Fs MarshalledObj :=
  CreateBackup (fun _ => 1) "backups" none c10opts c10cv 0 [] 0

def c10dummyMd : BackupMetadata :=
  { name := "", timestamp := 0, version := "", kubernetesVersion := "",
    namespaces := [], resourceTypes := [], totalResources := 0, backupPath := "",
    size := 0, compress := false }

def c10md : BackupMetadata := c10out.1.getD c10dummyMd

def c10fs : Fs MarshalledObj := c10out.2.2

def c10m : BackupManifest :=
  match getPath c10fs (c10md.backupPath ++ "/" ++ ManifestFileName) with
  | some (.plain (.manifestFile m)) => m
  | _ => { metadata := c10dummyMd, resources := [] }

def c10dummyInfo : ResourceInfo :=
  { apiVersion := "", kind := "", ns := "", name := "", relativePath := "",
    labels := [], annotations := [] }

def c10i : ResourceInfo := c10m.resources.headD c10dummyInfo

/-- Witness for C10: a concrete cluster holding a token-typed secret
"sa-token", a "default" ServiceAccount, a "system:"-prefixed ClusterRole and
ClusterRoleBinding; the first record of the saved manifest matches none of
them. -/
theorem claim_c10_silent_omissions_witness :
    ¬(c10i.kind = "ServiceAccount" ∧ c10i.name = "default") ∧
    (c10i.kind = "ClusterRole" → "system:".data.isPrefixOf c10i.name.data = false) ∧
    (c10i.kind = "ClusterRoleBinding" →
      "system:".data.isPrefixOf c10i.name.data = false) ∧
    ¬(c10i.kind = "Secret" ∧ c10i.ns = "default" ∧ c10i.name = "sa-token") :=
  claim_c10_silent_omissions (fun _ => 1) "backups" none c10opts c10cv 0 [] 0
    c10md c10fs c10m "default" "sa-token" (by decide) (by decide) (by decide)
    (by decide) c10i (by decide)
